import Mathlib

/-!
Verification model of the typed dataflow graph engine in
`ldm/invoke/app/services/graph.py` and the invoker façade in
`ldm/invoke/app/services/invoker.py`.

Conventions of the shallow embedding:
* Python strings are modelled as `Str := List Char`; string literals are
  written via `String.data`.
* Python dicts are association lists preserving insertion order
  (`dictLookup` / `dictSet` / `dictDel`); Python sets are duplicate-free
  lists in insertion order (`setAdd`), which fixes one concrete iteration
  order for Python's unspecified set order.
* Python exceptions are modelled with `Except PyErr` for read-only
  helpers, and with `PyResult` for mutating methods, whose `raised`
  constructor carries the state the object holds at raise time.  In the
  `Except`-based state-machine functions an exception discards the
  partially updated state; all theorems below only rely on runs that do
  not raise midway, or on raises that occur before any mutation.
* `uuid.uuid4()` is modelled by an injective supply of fresh identifiers
  driven by a counter stored in the execution state.
* The third-party `networkx` dependency is modelled by `DiGraph` with
  insertion-ordered node/edge lists; `topological_sort` is realised by
  Kahn's algorithm emitting generations in insertion order, matching the
  deterministic generator networkx provides, and the lazy-consumption
  behaviour of the generator is reproduced where the source only reads a
  prefix of it.
-/

abbrev Str := List Char

/-- Shorthand turning a Lean string literal into the `List Char` model of Python strings. -/
def s (x : String) : Str := x.data

/-- Domain errors and Python built-in exceptions that the modelled code can raise. -/
inductive PyErr where
  | nodeAlreadyInGraph
  | invalidEdge
  | nodeNotFound
  | nodeAlreadyExecuted
  | keyError
  | valueError
  | indexError
  | typeError
  | attributeError
  | stopIteration
  | validationError
  | networkXError
deriving DecidableEq, Repr

/-- Result of a Python method that mutates its receiver: either the updated state,
or an exception together with the state the object holds when the exception leaves
the method. -/
inductive PyResult (σ : Type) where
  | ok (a : σ)
  | raised (e : PyErr) (a : σ)
deriving DecidableEq, Repr

instance {ε α : Type} [DecidableEq ε] [DecidableEq α] : DecidableEq (Except ε α) := fun a b =>
  match a, b with
  | .ok x, .ok y =>
    if h : x = y then .isTrue (by rw [h]) else .isFalse (by intro hc; cases hc; exact h rfl)
  | .error x, .error y =>
    if h : x = y then .isTrue (by rw [h]) else .isFalse (by intro hc; cases hc; exact h rfl)
  | .ok _, .error _ => .isFalse (by intro hc; cases hc)
  | .error _, .ok _ => .isFalse (by intro hc; cases hc)

/-! Association lists modelling Python `dict` (insertion order preserved). -/

/-- Lookup in a Python-dict model: first binding of the key wins. -/
def dictLookup {α : Type} (l : List (Str × α)) (k : Str) : Option α :=
  match l with
  | [] => none
  | (k2, v) :: rest => if k2 = k then some v else dictLookup rest k

/-- Membership test for the Python-dict model (`k in d`). -/
def dictContains {α : Type} (l : List (Str × α)) (k : Str) : Bool :=
  match l with
  | [] => false
  | (k2, _) :: rest => if k2 = k then true else dictContains rest k

/-- Assignment `d[k] = v`: replaces in place if present, appends otherwise. -/
def dictSet {α : Type} (l : List (Str × α)) (k : Str) (v : α) : List (Str × α) :=
  match l with
  | [] => [(k, v)]
  | (k2, v2) :: rest => if k2 = k then (k2, v) :: rest else (k2, v2) :: dictSet rest k v

/-- Deletion `del d[k]` (the callers below only use it on present keys). -/
def dictDel {α : Type} (l : List (Str × α)) (k : Str) : List (Str × α) :=
  match l with
  | [] => []
  | (k2, v2) :: rest => if k2 = k then rest else (k2, v2) :: dictDel rest k

/-- Python `set.add`: appends only when absent, so the list stays duplicate-free. -/
def setAdd (l : List Str) (x : Str) : List Str :=
  if x ∈ l then l else l ++ [x]

/-- First-occurrence deduplication, the order determinization of Python's `set(...)`. -/
def dedup {α : Type} [DecidableEq α] (l : List α) : List α :=
  match l with
  | [] => []
  | x :: rest => if x ∈ rest then dedup rest else x :: dedup rest

/-- Removal of the first occurrence, the behaviour of Python's `list.remove`
(which raises `ValueError` when the element is absent; callers check presence). -/
def removeFirst {α : Type} [DecidableEq α] : List α → α → List α
  | [], _ => []
  | a :: rest, e => if a = e then rest else a :: removeFirst rest e

/-! String helpers mirroring the Python index arithmetic on node paths. -/

/-- Python `node_path[:node_path.index('.')]` (valid when a dot is present). -/
def takeBeforeFirstDot (p : Str) : Str := p.takeWhile (fun c => c ≠ '.')

/-- Python `node_path[node_path.index('.')+1:]` (valid when a dot is present). -/
def dropThroughFirstDot (p : Str) : Str := (p.dropWhile (fun c => c ≠ '.')).drop 1

/-- Python `node_path[:node_path.rindex('.')]` (valid when a dot is present). -/
def takeBeforeLastDot (p : Str) : Str := ((p.reverse.dropWhile (fun c => c ≠ '.')).drop 1).reverse

/-- Python `node_path[node_path.rindex('.'):]`, keeping the dot itself
(valid when a dot is present). -/
def fromLastDotIncl (p : Str) : Str := '.' :: (p.reverse.takeWhile (fun c => c ≠ '.')).reverse

/-! Model of the `networkx` directed-graph interface used by the source. -/

/-- Directed graph over node-id strings with insertion-ordered node and edge lists. -/
structure DiGraph where
  nodesL : List Str
  edgesL : List (Str × Str)
deriving DecidableEq, Repr

namespace DiGraph

def empty : DiGraph := ⟨[], []⟩

/-- Adding an already-present node is a no-op, as in networkx. -/
def addNode (g : DiGraph) (n : Str) : DiGraph :=
  if n ∈ g.nodesL then g else ⟨g.nodesL ++ [n], g.edgesL⟩

def addNodesFrom (g : DiGraph) (ns : List Str) : DiGraph :=
  ns.foldl addNode g

/-- Adding an edge silently adds missing endpoints, as in networkx. -/
def addEdge (g : DiGraph) (e : Str × Str) : DiGraph :=
  let g1 := (g.addNode e.1).addNode e.2
  if e ∈ g1.edgesL then g1 else ⟨g1.nodesL, g1.edgesL ++ [e]⟩

def addEdgesFrom (g : DiGraph) (es : List (Str × Str)) : DiGraph :=
  es.foldl addEdge g

/-- Edges into `n`, as returned by `G.in_edges(n)`. -/
def inEdges (g : DiGraph) (n : Str) : List (Str × Str) :=
  g.edgesL.filter (fun e => e.2 = n)

/-- Direct successors of `n`. -/
def succs (g : DiGraph) (n : Str) : List Str :=
  (g.edgesL.filter (fun e => e.1 = n)).map (fun e => e.2)

/-- Removal of a set of edges (`G.remove_edges_from`). -/
def removeEdgesFrom (g : DiGraph) (es : List (Str × Str)) : DiGraph :=
  ⟨g.nodesL, g.edgesL.filter (fun e => e ∉ es)⟩

/-- One step of the forward-reachability closure. -/
def reachStep (g : DiGraph) (seen : List Str) : List Str :=
  seen ++ (g.edgesL.filter (fun e => e.1 ∈ seen ∧ e.2 ∉ seen)).map (fun e => e.2)

/-- Iterated closure with enough fuel to stabilise. -/
def reachIter (g : DiGraph) : Nat → List Str → List Str
  | 0, seen => seen
  | f + 1, seen => reachIter g f (reachStep g seen)

/-- All nodes reachable from `u` (including `u` itself). -/
def reachableFrom (g : DiGraph) (u : Str) : List Str :=
  reachIter g g.nodesL.length [u]

/-- Boolean reachability used internally. -/
def reaches (g : DiGraph) (u v : Str) : Bool :=
  v ∈ g.reachableFrom u

/-- Model of `nx.has_path`, which raises when either endpoint is missing. -/
def has_path (g : DiGraph) (u v : Str) : Except PyErr Bool :=
  if u ∈ g.nodesL ∧ v ∈ g.nodesL then .ok (g.reaches u v) else .error .networkXError

/-- Model of `nx.ancestors`: all nodes with a directed path to `n`, excluding `n`;
raises when `n` is not a node of the graph. -/
def ancestors (g : DiGraph) (n : Str) : Except PyErr (List Str) :=
  if n ∈ g.nodesL then
    .ok (g.nodesL.filter (fun u => u ≠ n ∧ g.reaches u n))
  else .error .networkXError

/-- Whether `n` has no incoming edge in the running edge set. -/
def noIncoming (es : List (Str × Str)) (n : Str) : Bool :=
  es.all (fun e => e.2 ≠ n)

/-- Kahn's algorithm emitting whole generations in node insertion order; this is
the order in which networkx's `topological_sort` generator yields nodes.  When
the graph has a cycle the returned list is the longest prefix the generator can
produce before it would raise. -/
def kahn : Nat → List Str → List (Str × Str) → List Str
  | 0, _, _ => []
  | f + 1, ns, es =>
    let ready := ns.filter (noIncoming es)
    match ready with
    | [] => []
    | _ =>
      let rest := ns.filter (fun n => ¬ noIncoming es n)
      let es2 := es.filter (fun e => e.1 ∉ ready)
      ready ++ kahn f rest es2

/-- Prefix of the topological order that `nx.topological_sort` yields before
either finishing or raising `NetworkXUnfeasible`. -/
def topoPrefix (g : DiGraph) : List Str :=
  kahn g.nodesL.length g.nodesL g.edgesL

/-- Model of `nx.is_directed_acyclic_graph`: Kahn's algorithm empties the graph. -/
def isDAG (g : DiGraph) : Bool :=
  g.topoPrefix.length = g.nodesL.length

end DiGraph

/-! Port type model.  Field types of the polymorphic invocation variants are
first-class data: the external invocation library declares each variant's
input/output fields statically, which the source reads back via runtime
annotation reflection (`get_type_hints`, `get_origin`, `get_args`,
`issubclass`).  The nominal hierarchy of the modelled library is flat, so
`issubclass` is type equality here. -/

/-- Declared field types: the wildcard `Any`, primitives, a nominal class, the
absent-value sentinel `NoneType`, and parameterised sequences `list[t]`. -/
inductive FieldType where
  | any
  | intT
  | strT
  | noneType
  | named (n : Str)
  | list (t : FieldType)
deriving DecidableEq, Repr

/-- Generic origins distinguished by `typing.get_origin` in the source. -/
inductive TypeOrigin where
  | listO
deriving DecidableEq, Repr

/-- Model of `typing.get_origin`. -/
def getOrigin : FieldType → Option TypeOrigin
  | .list _ => some .listO
  | _ => none

/-- Model of `typing.get_args`. -/
def getArgs : FieldType → List FieldType
  | .list t => [t]
  | _ => []

/-- Model of `issubclass` over the flat nominal hierarchy of the variant library. -/
def issubclass (a b : FieldType) : Bool := a = b

/-- Runtime values carried by invocation fields and outputs. -/
inductive Val where
  | none
  | int (n : Int)
  | str (x : Str)
  | list (l : List Val)

/-- One end of a wire: `(node_id, field)`; equality and hashing are componentwise. -/
structure EdgeConnection where
  node_id : Str
  field : Str
deriving DecidableEq, Repr

/-- Directed edge from a producer connection to a consumer connection. -/
abbrev Edge := EdgeConnection × EdgeConnection

mutual
/-- Invocation node variants.  `normal` stands for an arbitrary variant of the
external invocation library, carrying its discriminator `ty`, its declared
input field types, its current input field values, and its declared output
field types.  The three engine-defined variants follow the source classes
`GraphInvocation`, `IterateInvocation` and `CollectInvocation`. -/
inductive Node where
  | normal (id : Str) (ty : Str) (inTypes : List (Str × FieldType))
      (inVals : List (Str × Val)) (outTypes : List (Str × FieldType))
  | graphNode (id : Str) (graph : Graph)
  | iterate (id : Str) (collection : List Val) (index : Int)
  | collect (id : Str) (item : Val) (collection : List Val)

/-- Graph: id, node dict keyed by node id, and an ordered edge list. -/
inductive Graph where
  | mk (gid : Str) (nodes : List (Str × Node)) (edges : List Edge)
end

def Graph.gid : Graph → Str
  | .mk i _ _ => i

def Graph.nodes : Graph → List (Str × Node)
  | .mk _ n _ => n

def Graph.edges : Graph → List Edge
  | .mk _ _ e => e

def Graph.withEdges (g : Graph) (es : List Edge) : Graph :=
  .mk g.gid g.nodes es

def Graph.withNodes (g : Graph) (ns : List (Str × Node)) : Graph :=
  .mk g.gid ns g.edges

def Node.id : Node → Str
  | .normal i _ _ _ _ => i
  | .graphNode i _ => i
  | .iterate i _ _ => i
  | .collect i _ _ => i

/-- Copy of a node with a fresh id, as produced by `copy.deepcopy` plus the
`new_node.id = str(uuid.uuid4())` assignment. -/
def Node.withId (n : Node) (i : Str) : Node :=
  match n with
  | .normal _ ty it iv ot => .normal i ty it iv ot
  | .graphNode _ g => .graphNode i g
  | .iterate _ c ix => .iterate i c ix
  | .collect _ it c => .collect i it c

def Node.isGraphNode : Node → Bool
  | .graphNode _ _ => true
  | _ => false

def Node.isIterate : Node → Bool
  | .iterate _ _ _ => true
  | _ => false

def Node.isCollect : Node → Bool
  | .collect _ _ _ => true
  | _ => false

/-- Python `type(a) == type(b)` over the variant classes: the engine-defined
variants are distinct classes, and two external variants are the same class
exactly when their discriminators agree. -/
def Node.sameClass : Node → Node → Bool
  | .normal _ ty1 _ _ _, .normal _ ty2 _ _ _ => ty1 = ty2
  | .graphNode _ _, .graphNode _ _ => true
  | .iterate _ _ _, .iterate _ _ _ => true
  | .collect _ _ _, .collect _ _ _ => true
  | _, _ => false

/-- Model of `get_type_hints(node_type.get_output_type()).get(field)`:
the declared output fields of each variant (`GraphInvocationOutput` has no
data field, `IterateInvocationOutput` has `item: Any`,
`CollectInvocationOutput` has `collection: list[Any]`). -/
def get_output_field (node : Node) (f : Str) : Option FieldType :=
  match node with
  | .normal _ _ _ _ outTypes => dictLookup outTypes f
  | .graphNode _ _ => none
  | .iterate _ _ _ => dictLookup [(s "item", FieldType.any)] f
  | .collect _ _ _ => dictLookup [(s "collection", FieldType.list .any)] f

/-- Model of `get_type_hints(node_type).get(field)`: the declared input fields
of each variant (`IterateInvocation` has `collection: list[Any]` and
`index: int`, `CollectInvocation` has `item: Any` and
`collection: list[Any]`; `GraphInvocation` exposes no connectable input). -/
def get_input_field (node : Node) (f : Str) : Option FieldType :=
  match node with
  | .normal _ _ inTypes _ _ => dictLookup inTypes f
  | .graphNode _ _ => none
  | .iterate _ _ _ => dictLookup [(s "collection", FieldType.list .any), (s "index", FieldType.intT)] f
  | .collect _ _ _ => dictLookup [(s "item", FieldType.any), (s "collection", FieldType.list .any)] f

/-- Port compatibility, following `are_connection_types_compatible` clause by
clause (missing fields are Python `None` and fail the truthiness guards). -/
def are_connection_types_compatible (fromType toType : Option FieldType) : Bool :=
  match fromType, toType with
  | Option.none, _ => false
  | _, Option.none => false
  | some f, some t =>
    if f = t ∨ f = .any ∨ t = .any ∨ .any ∈ getArgs f ∨ .any ∈ getArgs t then true
    else if f ∈ getArgs t then true
    else if t ∈ getArgs f then true
    else issubclass f t

/-- Model of `are_connections_compatible`. -/
def are_connections_compatible (from_node : Node) (from_field : Str)
    (to_node : Node) (to_field : Str) : Bool :=
  are_connection_types_compatible (get_output_field from_node from_field)
    (get_input_field to_node to_field)

/-- Model of `Graph._get_node_path`. -/
def _get_node_path (node_id : Str) (pfx : Option Str) : Str :=
  match pfx with
  | Option.none => node_id
  | some pre => if pre = [] then node_id else pre ++ '.' :: node_id

mutual
/-- Model of `Graph._get_graph_and_node`, additionally threading the component
address (`addr`) of the current graph inside the whole tree; the address is
model-only bookkeeping standing for the object reference Python returns, and
the returned triple extends the source's `(graph, node_id)` pair with the
address of `graph`. -/
def Graph._get_graph_and_node_addr (g : Graph) (node_path : Str) (addr : List Str) :
    Except PyErr (Graph × Str × List Str) :=
  match g with
  | .mk ggid gnodes gedges =>
    if dictContains gnodes node_path then .ok (Graph.mk ggid gnodes gedges, node_path, addr)
    else
      let node_id := if '.' ∈ node_path then takeBeforeFirstDot node_path else node_path
      ggnSearch gnodes node_id node_path addr

/-- List walk realising `self.nodes[node_id]` followed by the recursive descent
of `_get_graph_and_node`; reaching the end of the list is the `node_id not in
self.nodes` branch, and a non-graph hit is the early-termination branch. -/
def ggnSearch (l : List (Str × Node)) (node_id node_path : Str) (addr : List Str) :
    Except PyErr (Graph × Str × List Str) :=
  match l with
  | [] => .error .nodeNotFound
  | (k, n) :: rest =>
    if k = node_id then
      match n with
      | .graphNode _ g2 => g2._get_graph_and_node_addr (dropThroughFirstDot node_path) (addr ++ [k])
      | _ => .error .nodeNotFound
    else ggnSearch rest node_id node_path addr
end

/-- Model of `Graph._get_graph_and_node`. -/
def Graph._get_graph_and_node (g : Graph) (node_path : Str) : Except PyErr (Graph × Str) := do
  let (g2, nid, _) ← g._get_graph_and_node_addr node_path []
  pure (g2, nid)

/-- Model of `Graph.get_node`. -/
def Graph.get_node (g : Graph) (node_path : Str) : Except PyErr Node := do
  let (g2, nid) ← g._get_graph_and_node node_path
  match dictLookup g2.nodes nid with
  | some n => pure n
  | Option.none => .error .keyError

/-- Model of `Graph.has_node`: catches only `NodeNotFoundError`. -/
def Graph.has_node (g : Graph) (node_path : Str) : Except PyErr Bool :=
  match g.get_node node_path with
  | .ok _ => .ok true
  | .error .nodeNotFound => .ok false
  | .error e => .error e

/-- Entry of `_get_input_edges_and_graphs` / `_get_output_edges_and_graphs`:
the containing graph, its path prefix, and one of its local edges.  `addr` is
model-only bookkeeping (the dict-key path of the containing graph inside the
tree) standing for the object reference through which Python later mutates
that same graph. -/
structure EdgeHit where
  graph : Graph
  pfx : Option Str
  addr : List Str
  edge : Edge

mutual
/-- Model of `Graph._get_input_edges_and_graphs`. -/
def Graph._get_input_edges_and_graphs (g : Graph) (node_path : Str) (pfx : Option Str)
    (addr : List Str) : Except PyErr (List EdgeHit) :=
  match g with
  | .mk ggid gnodes gedges =>
    let here := (gedges.filter (fun e => e.2.node_id = node_path)).map
      (fun e => EdgeHit.mk (Graph.mk ggid gnodes gedges) pfx addr e)
    let node_id := if '.' ∈ node_path then takeBeforeFirstDot node_path else node_path
    match giegSearch gnodes node_id node_path pfx addr with
    | .ok sub => .ok (here ++ sub)
    | .error err => .error err

/-- List walk realising `self.nodes[node_id]` (KeyError when the key is absent)
followed by the conditional recursion into a `GraphInvocation` child. -/
def giegSearch (l : List (Str × Node)) (node_id node_path : Str) (pfx : Option Str)
    (addr : List Str) : Except PyErr (List EdgeHit) :=
  match l with
  | [] => .error .keyError
  | (k, n) :: rest =>
    if k = node_id then
      match n with
      | .graphNode nid g2 =>
        let graph_path := match pfx with
          | Option.none => nid
          | some pre => if pre = [] then nid else _get_node_path nid (some pre)
        g2._get_input_edges_and_graphs (node_path.drop (node_id.length + 1))
          (some graph_path) (addr ++ [k])
      | _ => .ok []
    else giegSearch rest node_id node_path pfx addr
end

mutual
/-- Model of `Graph._get_output_edges_and_graphs`. -/
def Graph._get_output_edges_and_graphs (g : Graph) (node_path : Str) (pfx : Option Str)
    (addr : List Str) : Except PyErr (List EdgeHit) :=
  match g with
  | .mk ggid gnodes gedges =>
    let here := (gedges.filter (fun e => e.1.node_id = node_path)).map
      (fun e => EdgeHit.mk (Graph.mk ggid gnodes gedges) pfx addr e)
    let node_id := if '.' ∈ node_path then takeBeforeFirstDot node_path else node_path
    match goegSearch gnodes node_id node_path pfx addr with
    | .ok sub => .ok (here ++ sub)
    | .error err => .error err

/-- Output-edge counterpart of `giegSearch`. -/
def goegSearch (l : List (Str × Node)) (node_id node_path : Str) (pfx : Option Str)
    (addr : List Str) : Except PyErr (List EdgeHit) :=
  match l with
  | [] => .error .keyError
  | (k, n) :: rest =>
    if k = node_id then
      match n with
      | .graphNode nid g2 =>
        let graph_path := match pfx with
          | Option.none => nid
          | some pre => if pre = [] then nid else _get_node_path nid (some pre)
        g2._get_output_edges_and_graphs (node_path.drop (node_id.length + 1))
          (some graph_path) (addr ++ [k])
      | _ => .ok []
    else goegSearch rest node_id node_path pfx addr
end

/-- Model of `Graph._get_input_edges`: qualify each hit with its prefix and
optionally filter by destination field. -/
def Graph._get_input_edges (g : Graph) (node_path : Str) (fieldArg : Option Str) :
    Except PyErr (List Edge) := do
  let hits ← g._get_input_edges_and_graphs node_path Option.none []
  let filtered := hits.filter (fun h =>
    match fieldArg with
    | Option.none => true
    | some f => h.edge.2.field = f)
  pure (filtered.map (fun h =>
    (EdgeConnection.mk (_get_node_path h.edge.1.node_id h.pfx) h.edge.1.field,
     EdgeConnection.mk (_get_node_path h.edge.2.node_id h.pfx) h.edge.2.field)))

/-- Model of `Graph._get_output_edges` (the field filter is mandatory there). -/
def Graph._get_output_edges (g : Graph) (node_path : Str) (fieldArg : Str) :
    Except PyErr (List Edge) := do
  let hits ← g._get_output_edges_and_graphs node_path Option.none []
  let filtered := hits.filter (fun h => h.edge.1.field = fieldArg)
  pure (filtered.map (fun h =>
    (EdgeConnection.mk (_get_node_path h.edge.1.node_id h.pfx) h.edge.1.field,
     EdgeConnection.mk (_get_node_path h.edge.2.node_id h.pfx) h.edge.2.field)))

mutual
/-- Application of a mutation to the subgraph at a given dict-key address; this
is the purely functional rendering of Python's in-place mutation through the
graph references collected above.  An exception raised by the mutation leaves
the partial updates in place, exactly as in Python. -/
def Graph.modifyAt (g : Graph) (addr : List Str) (f : Graph → PyResult Graph) :
    PyResult Graph :=
  match g with
  | .mk ggid gnodes gedges =>
    match addr with
    | [] => f (Graph.mk ggid gnodes gedges)
    | k :: rest =>
      match modifySearch gnodes k rest f with
      | .ok ns => .ok (Graph.mk ggid ns gedges)
      | .raised e2 ns => .raised e2 (Graph.mk ggid ns gedges)

/-- List walk locating the addressed child graph and rebuilding the node list
around the updated subgraph. -/
def modifySearch (l : List (Str × Node)) (k : Str) (rest : List Str)
    (f : Graph → PyResult Graph) : PyResult (List (Str × Node)) :=
  match l with
  | [] => .raised .nodeNotFound []
  | (k2, n) :: tail =>
    if k2 = k then
      match n with
      | .graphNode nid g2 =>
        match g2.modifyAt rest f with
        | .ok g3 => .ok ((k2, Node.graphNode nid g3) :: tail)
        | .raised e2 g3 => .raised e2 ((k2, Node.graphNode nid g3) :: tail)
      | _ => .raised .nodeNotFound ((k2, n) :: tail)
    else
      match modifySearch tail k rest f with
      | .ok tail2 => .ok ((k2, n) :: tail2)
      | .raised e2 tail2 => .raised e2 ((k2, n) :: tail2)
end

/-- Model of `Graph.nx_graph`: top-level node ids plus deduplicated projected edges. -/
def Graph.nx_graph (g : Graph) : DiGraph :=
  (DiGraph.empty.addNodesFrom (g.nodes.map (fun p => p.1))).addEdgesFrom
    (dedup (g.edges.map (fun e => (e.1.node_id, e.2.node_id))))

mutual
/-- Model of `Graph.nx_graph_flat`: adds all non-graph, non-iterate nodes under
their path-qualified ids, recursively inlines subgraphs, then adds the
deduplicated projected edges (whose endpoints may re-introduce iterate nodes). -/
def Graph.nx_graph_flat (g : Graph) (acc : DiGraph) (pfx : Option Str) : DiGraph :=
  match g with
  | .mk _ gnodes gedges =>
    let acc1 := acc.addNodesFrom ((gnodes.filter
      (fun p => !p.2.isGraphNode && !p.2.isIterate)).map
      (fun p => _get_node_path p.2.id pfx))
    let acc2 := flatExpand gnodes acc1 pfx
    let unique_edges := dedup (gedges.map (fun e => (e.1.node_id, e.2.node_id)))
    acc2.addEdgesFrom (unique_edges.map
      (fun e2 => (_get_node_path e2.1 pfx, _get_node_path e2.2 pfx)))

/-- The per-child expansion loop of `nx_graph_flat`. -/
def flatExpand (l : List (Str × Node)) (acc : DiGraph) (pfx : Option Str) : DiGraph :=
  match l with
  | [] => acc
  | (_, Node.graphNode nid g2) :: rest =>
    flatExpand rest (g2.nx_graph_flat acc (some (_get_node_path nid pfx))) pfx
  | _ :: rest => flatExpand rest acc pfx
end

/-- Model of `Graph.add_node`. -/
def Graph.add_node (g : Graph) (node : Node) : PyResult Graph :=
  if dictContains g.nodes node.id then .raised .nodeAlreadyInGraph g
  else .ok (g.withNodes (dictSet g.nodes node.id node))

/-- Model of `Graph.delete_edge`: `self.edges.remove(edge)` raises `ValueError`
for an absent element, and the surrounding handler only catches `KeyError`, so
the exception escapes. -/
def Graph.delete_edge (g : Graph) (e : Edge) : PyResult Graph :=
  if e ∈ g.edges then .ok (g.withEdges (removeFirst g.edges e))
  else .raised .valueError g

/-- Model of `Graph._is_iterator_connection_valid`.  Note that when the
iterator has no wired `collection` input and no hypothetical one is supplied,
the source evaluates `inputs[0]` on an empty list and raises `IndexError`. -/
def Graph._is_iterator_connection_valid (g : Graph) (node_path : Str)
    (new_input new_output : Option EdgeConnection) : Except PyErr Bool := do
  let ies ← g._get_input_edges node_path (some (s "collection"))
  let oes ← g._get_output_edges node_path (s "item")
  let inputs := ies.map (fun e => e.1) ++
    (match new_input with | some i => [i] | Option.none => [])
  let outputs := oes.map (fun e => e.2) ++
    (match new_output with | some o => [o] | Option.none => [])
  if inputs.length > 1 then pure false
  else
    match inputs with
    | [] => .error .indexError
    | i0 :: _ => do
      let n0 ← g.get_node i0.node_id
      let input_field := get_output_field n0 i0.field
      let output_nodes ← outputs.mapM (fun e => g.get_node e.node_id)
      let output_fields := (output_nodes.zip outputs).map
        (fun p => get_input_field p.1 p.2.field)
      match input_field with
      | Option.none => pure false
      | some f =>
        if getOrigin f ≠ some TypeOrigin.listO then pure false
        else
          match getArgs f with
          | [] => .error .indexError
          | input_field_item_type :: _ =>
            pure (output_fields.all (fun of =>
              are_connection_types_compatible (some input_field_item_type) of))

/-- Model of `Graph._is_collector_connection_valid`, including the type-tree
root analysis (`itertools.permutations` evaluates `issubclass` on every pair,
so a missing producer field, which is Python `None`, raises `TypeError` as soon
as a second distinct type is present). -/
def Graph._is_collector_connection_valid (g : Graph) (node_path : Str)
    (new_input new_output : Option EdgeConnection) : Except PyErr Bool := do
  let ies ← g._get_input_edges node_path (some (s "item"))
  let oes ← g._get_output_edges node_path (s "collection")
  let inputs := ies.map (fun e => e.1) ++
    (match new_input with | some i => [i] | Option.none => [])
  let outputs := oes.map (fun e => e.2) ++
    (match new_output with | some o => [o] | Option.none => [])
  let input_nodes ← inputs.mapM (fun e => g.get_node e.node_id)
  let input_fields := (input_nodes.zip inputs).map (fun p => get_output_field p.1 p.2.field)
  let output_nodes ← outputs.mapM (fun e => g.get_node e.node_id)
  let output_fields := (output_nodes.zip outputs).map (fun p => get_input_field p.1 p.2.field)
  let expanded : List (Option FieldType) := input_fields.flatMap (fun f? =>
    match f? with
    | Option.none => [Option.none]
    | some f => if getOrigin f = Option.none then [some f] else (getArgs f).map some)
  let input_field_types := dedup (expanded.filter (fun t => t ≠ some FieldType.noneType))
  let pairs := input_field_types.flatMap (fun a =>
    (input_field_types.filter (fun b => b ≠ a)).map (fun b => (a, b)))
  let type_edges ← pairs.filterM (fun ab =>
    match ab.1, ab.2 with
    | some a, some b => Except.ok (issubclass b a)
    | _, _ => Except.error PyErr.typeError)
  let roots := input_field_types.filter (fun t => type_edges.all (fun e2 => e2.2 ≠ t))
  if roots.length ≠ 1 then pure false
  else
    match roots with
    | [] => .error .stopIteration
    | input_root_type :: _ =>
      if ¬ output_fields.all (fun f? =>
          match f? with
          | some f => getOrigin f = some TypeOrigin.listO
          | Option.none => false) then pure false
      else do
        let oks ← output_fields.mapM (fun f? =>
          match f?, input_root_type with
          | some (FieldType.list t), some r => Except.ok (issubclass r t)
          | _, _ => Except.error PyErr.typeError)
        pure (oks.all (fun b => b))

/-- Model of `Graph._is_edge_valid`, check for check in source order; only the
`NodeNotFoundError` of endpoint resolution is caught, every other exception
escapes. -/
def Graph._is_edge_valid (g : Graph) (e : Edge) : Except PyErr Bool :=
  match g.get_node e.1.node_id with
  | .error .nodeNotFound => .ok false
  | .error err => .error err
  | .ok from_node =>
    match g.get_node e.2.node_id with
    | .error .nodeNotFound => .ok false
    | .error err => .error err
    | .ok to_node =>
      match g._get_input_edges e.2.node_id (some e.2.field) with
      | .error err => .error err
      | .ok input_edges =>
        if input_edges.length > 0 ∧ ¬ to_node.isCollect then .ok false
        else
          let gflat := (g.nx_graph_flat DiGraph.empty Option.none).addEdge
            (e.1.node_id, e.2.node_id)
          if ¬ DiGraph.isDAG gflat then .ok false
          else if ¬ are_connections_compatible from_node e.1.field to_node e.2.field then
            .ok false
          else
            match (if to_node.isIterate ∧ e.2.field = s "collection" then
                g._is_iterator_connection_valid e.2.node_id (some e.1) Option.none
              else Except.ok true) with
            | .error err => .error err
            | .ok false => .ok false
            | .ok true =>
              match (if from_node.isIterate ∧ e.1.field = s "item" then
                  g._is_iterator_connection_valid e.1.node_id Option.none (some e.2)
                else Except.ok true) with
              | .error err => .error err
              | .ok false => .ok false
              | .ok true =>
                match (if to_node.isCollect ∧ e.2.field = s "item" then
                    g._is_collector_connection_valid e.2.node_id (some e.1) Option.none
                  else Except.ok true) with
                | .error err => .error err
                | .ok false => .ok false
                | .ok true =>
                  match (if from_node.isCollect ∧ e.1.field = s "collection" then
                      g._is_collector_connection_valid e.1.node_id Option.none (some e.2)
                    else Except.ok true) with
                  | .error err => .error err
                  | .ok false => .ok false
                  | .ok true => .ok true

/-- Model of `Graph.add_edge`: append when the edge is valid and not already
present, raise `InvalidEdgeError` otherwise; the short-circuit `and` evaluates
`_is_edge_valid` first, so its exceptions escape unchanged. -/
def Graph.add_edge (g : Graph) (e : Edge) : PyResult Graph :=
  match g._is_edge_valid e with
  | .error err => .raised err g
  | .ok v =>
    if v ∧ e ∉ g.edges then .ok (g.withEdges (g.edges ++ [e]))
    else .raised .invalidEdge g

/-- The `all(has_node ...)` loop of `is_valid` (lazy, short-circuiting). -/
def allHaveNode (g : Graph) : List Str → Except PyErr Bool
  | [] => .ok true
  | nid :: rest =>
    match g.has_node nid with
    | .error err => .error err
    | .ok false => .ok false
    | .ok true => allHaveNode g rest

/-- The `all(are_connections_compatible ...)` loop of `is_valid`. -/
def allEdgesCompatible (g : Graph) : List Edge → Except PyErr Bool
  | [] => .ok true
  | e :: rest =>
    match g.get_node e.1.node_id with
    | .error err => .error err
    | .ok a =>
      match g.get_node e.2.node_id with
      | .error err => .error err
      | .ok b =>
        if are_connections_compatible a e.1.field b e.2.field then
          allEdgesCompatible g rest
        else .ok false

/-- The `all(_is_iterator_connection_valid ...)` loop of `is_valid`. -/
def allIteratorsValid (g : Graph) : List (Str × Node) → Except PyErr Bool
  | [] => .ok true
  | (_, n) :: rest =>
    if n.isIterate then
      match g._is_iterator_connection_valid n.id Option.none Option.none with
      | .error err => .error err
      | .ok false => .ok false
      | .ok true => allIteratorsValid g rest
    else allIteratorsValid g rest

/-- The `all(_is_collector_connection_valid ...)` loop of `is_valid`. -/
def allCollectorsValid (g : Graph) : List (Str × Node) → Except PyErr Bool
  | [] => .ok true
  | (_, n) :: rest =>
    if n.isCollect then
      match g._is_collector_connection_valid n.id Option.none Option.none with
      | .error err => .error err
      | .ok false => .ok false
      | .ok true => allCollectorsValid g rest
    else allCollectorsValid g rest

mutual
/-- Model of `Graph.is_valid`: subgraphs first, then edge endpoints, then
acyclicity of the flat view, then port compatibility, then the iterator and
collector shape rules. -/
def Graph.is_valid (g : Graph) : Except PyErr Bool :=
  match g with
  | .mk ggid gnodes gedges =>
    match validSubgraphs gnodes with
    | .error err => .error err
    | .ok false => .ok false
    | .ok true =>
      let gg := Graph.mk ggid gnodes gedges
      let node_ids := dedup ((gedges.map (fun e => e.1.node_id)) ++
        (gedges.map (fun e => e.2.node_id)))
      match allHaveNode gg node_ids with
      | .error err => .error err
      | .ok false => .ok false
      | .ok true =>
        if ¬ DiGraph.isDAG (gg.nx_graph_flat DiGraph.empty Option.none) then .ok false
        else
          match allEdgesCompatible gg gedges with
          | .error err => .error err
          | .ok false => .ok false
          | .ok true =>
            match allIteratorsValid gg gnodes with
            | .error err => .error err
            | .ok false => .ok false
            | .ok true =>
              match allCollectorsValid gg gnodes with
              | .error err => .error err
              | .ok false => .ok false
              | .ok true => .ok true

/-- The recursive subgraph-validation loop of `is_valid`. -/
def validSubgraphs : List (Str × Node) → Except PyErr Bool
  | [] => .ok true
  | (_, Node.graphNode _ g2) :: rest =>
    match g2.is_valid with
    | .error err => .error err
    | .ok false => .ok false
    | .ok true => validSubgraphs rest
  | _ :: rest => validSubgraphs rest
end

/-- The edge-deletion loop of `delete_node`: each collected edge is removed from
the graph object it was found in (addressed here by `addr`). -/
def deleteEdgesAt (g : Graph) : List EdgeHit → PyResult Graph
  | [] => .ok g
  | h :: rest =>
    match g.modifyAt h.addr (fun sub => sub.delete_edge h.edge) with
    | .ok g2 => deleteEdgesAt g2 rest
    | .raised e2 g2 => .raised e2 g2

/-- Body of `Graph.delete_node` before its `try`/`except` wrapper. -/
def Graph.delete_node_inner (g : Graph) (node_path : Str) : PyResult Graph :=
  match g._get_graph_and_node_addr node_path [] with
  | .error err => .raised err g
  | .ok (_, node_id, gaddr) =>
    match g._get_input_edges_and_graphs node_path Option.none [] with
    | .error err => .raised err g
    | .ok input_edges =>
      match g._get_output_edges_and_graphs node_path Option.none [] with
      | .error err => .raised err g
      | .ok output_edges =>
        match deleteEdgesAt g input_edges with
        | .raised e2 g2 => .raised e2 g2
        | .ok g2 =>
          match deleteEdgesAt g2 output_edges with
          | .raised e3 g3 => .raised e3 g3
          | .ok g3 =>
            g3.modifyAt gaddr (fun sub =>
              if dictContains sub.nodes node_id then
                .ok (sub.withNodes (dictDel sub.nodes node_id))
              else .raised .keyError sub)

/-- Model of `Graph.delete_node`: the `except NodeNotFoundError: pass` handler
suppresses that error while keeping whatever partial mutation happened. -/
def Graph.delete_node (g : Graph) (node_path : Str) : PyResult Graph :=
  match g.delete_node_inner node_path with
  | .raised .nodeNotFound g2 => .ok g2
  | r => r

/-- The rewiring computed at lines 374 and 379 of the source: keep the plain new
id for a dot-free endpoint path, otherwise glue `old[old.rindex('.'):]` (which
still starts with the dot) in front of it. -/
def updateRewirePath (old newId : Str) : Str :=
  if '.' ∈ old then fromLastDotIncl old ++ '.' :: newId else newId

/-- The input-edge re-creation loop of `update_node`. -/
def updateRewireIn (g : Graph) (newId : Str) : List EdgeHit → PyResult Graph
  | [] => .ok g
  | h :: rest =>
    let p := updateRewirePath h.edge.2.node_id newId
    match g.modifyAt h.addr (fun sub =>
        sub.add_edge (h.edge.1, EdgeConnection.mk p h.edge.2.field)) with
    | .ok g2 => updateRewireIn g2 newId rest
    | .raised e2 g2 => .raised e2 g2

/-- The output-edge re-creation loop of `update_node`. -/
def updateRewireOut (g : Graph) (newId : Str) : List EdgeHit → PyResult Graph
  | [] => .ok g
  | h :: rest =>
    let p := updateRewirePath h.edge.1.node_id newId
    match g.modifyAt h.addr (fun sub =>
        sub.add_edge (EdgeConnection.mk p h.edge.1.field, h.edge.2)) with
    | .ok g2 => updateRewireOut g2 newId rest
    | .raised e2 g2 => .raised e2 g2

/-- Model of `Graph.update_node`.  Note two behaviours of the source preserved
here: the node is stored under the new id before the old one is removed, and
the removal is `graph.delete_node(node_path)` — the *containing* graph asked to
resolve the *full* path, which silently does nothing when the path is dotted. -/
def Graph.update_node (g : Graph) (node_path : Str) (new_node : Node) : PyResult Graph :=
  match g._get_graph_and_node_addr node_path [] with
  | .error err => .raised err g
  | .ok (sub, node_id, gaddr) =>
    match dictLookup sub.nodes node_id with
    | Option.none => .raised .keyError g
    | some node =>
      if ¬ node.sameClass new_node then .raised .typeError g
      else
        let pfx := if '.' ∈ node_path then some (takeBeforeLastDot node_path) else Option.none
        let new_path := _get_node_path new_node.id pfx
        match (if decide (new_node.id ≠ node.id) then g.has_node new_path
          else Except.ok false) with
        | .error err => .raised err g
        | .ok collision =>
          if collision then .raised .nodeAlreadyInGraph g
          else
            match g.modifyAt gaddr (fun sub2 =>
                .ok (sub2.withNodes (dictSet sub2.nodes new_node.id new_node))) with
            | .raised e2 g2 => .raised e2 g2
            | .ok g1 =>
              if decide (new_node.id = node.id) then .ok g1
              else
                match g1._get_input_edges_and_graphs node_path Option.none [] with
                | .error err => .raised err g1
                | .ok input_edges =>
                  match g1._get_output_edges_and_graphs node_path Option.none [] with
                  | .error err => .raised err g1
                  | .ok output_edges =>
                    match g1.modifyAt gaddr (fun sub2 => sub2.delete_node node_path) with
                    | .raised e3 g2 => .raised e3 g2
                    | .ok g2 =>
                      match updateRewireIn g2 new_node.id input_edges with
                      | .raised e4 g3 => .raised e4 g3
                      | .ok g3 => updateRewireOut g3 new_node.id output_edges

/-! Execution state (`GraphExecutionState`). -/

/-- Outputs of executed invocations: a record of named field values. -/
abbrev Output := List (Str × Val)

/-- Model of `getattr(output, field)`. -/
def pyGetattr (out : Output) (f : Str) : Except PyErr Val :=
  match dictLookup out f with
  | some v => .ok v
  | Option.none => .error .attributeError

/-- Injective model of the `str(uuid.uuid4())` fresh-identifier supply, driven
by a counter carried in the execution state. -/
def freshId (n : Nat) : Str := 'u' :: List.replicate n '0'

/-- Model of `GraphExecutionState`; `fresh` is the model's uuid counter. -/
structure GraphExecutionState where
  graph : Graph
  execution_graph : Graph
  executed : List Str
  executed_history : List Str
  results : List (Str × Output)
  errors : List (Str × Str)
  prepared_source_mapping : List (Str × Str)
  source_prepared_mapping : List (Str × List Str)
  fresh : Nat

/-- Construction of `GraphExecutionState(graph = g)` with all default fields. -/
def GraphExecutionState.create (g : Graph) : GraphExecutionState :=
  ⟨g, Graph.mk (s "execution") [] [], [], [], [], [], [], [], 0⟩

/-- Model of `setattr(node, field, value)`.  The typed model only accepts
assignments of matching shape to declared fields; every run relied on below
assigns well-typed values only. -/
def Node.setField (n : Node) (f : Str) (v : Val) : Except PyErr Node :=
  match n with
  | .normal i ty it iv ot => .ok (.normal i ty it (dictSet iv f v) ot)
  | .iterate i c ix =>
    if f = s "collection" then
      match v with
      | .list l => .ok (.iterate i l ix)
      | _ => .error .validationError
    else if f = s "index" then
      match v with
      | .int m => .ok (.iterate i c m)
      | _ => .error .validationError
    else .error .validationError
  | .collect i it c =>
    if f = s "item" then .ok (.collect i v c)
    else if f = s "collection" then
      match v with
      | .list l => .ok (.collect i it l)
      | _ => .error .validationError
    else .error .validationError
  | .graphNode _ _ => .error .validationError

/-- Second half of `complete` (lines 593-599): look up the source of the
finished prepared node and lift the source id into `executed` once every
prepared copy is done. -/
def completeRecord (st1 : GraphExecutionState) (node_id : Str) :
    Except PyErr GraphExecutionState :=
  match dictLookup st1.prepared_source_mapping node_id with
  | Option.none => .error .keyError
  | some source_node =>
    match dictLookup st1.source_prepared_mapping source_node with
    | Option.none => .error .keyError
    | some prepared_nodes =>
      if prepared_nodes.all (fun n => n ∈ st1.executed) then
        .ok { st1 with
          executed := setAdd st1.executed source_node,
          executed_history := st1.executed_history ++ [source_node] }
      else .ok st1

/-- Model of `GraphExecutionState.complete`. -/
def GraphExecutionState.complete (st : GraphExecutionState) (node_id : Str)
    (output : Output) : Except PyErr GraphExecutionState :=
  if ¬ dictContains st.execution_graph.nodes node_id then .ok st
  else
    completeRecord { st with
      executed := setAdd st.executed node_id,
      results := dictSet st.results node_id output } node_id

/-- Model of `GraphExecutionState.set_node_error`. -/
def GraphExecutionState.set_node_error (st : GraphExecutionState) (node_id : Str)
    (e : Str) : GraphExecutionState :=
  { st with errors := dictSet st.errors node_id e }

/-- Model of `GraphExecutionState.has_error`. -/
def GraphExecutionState.has_error (st : GraphExecutionState) : Bool :=
  decide (st.errors.length > 0)

/-- Model of `GraphExecutionState.is_complete`: an error, or every source node
id in `executed`. -/
def GraphExecutionState.is_complete (st : GraphExecutionState) : Bool :=
  st.has_error || st.graph.nodes.all (fun p => p.1 ∈ st.executed)

/-- The `new_edges` construction of `_create_execution_node`: one template edge
per matching iteration mapping, with an empty placeholder destination id.  A
mapping whose prepared id is the Python `None` would flow into
`EdgeConnection(node_id = None, ...)` and fail pydantic validation. -/
def buildNewEdges : List Edge → List (Str × Option Str) → Except PyErr (List Edge)
  | [], _ => .ok []
  | e :: rest, m => do
    let here ← (m.filter (fun p => p.1 = e.1.node_id)).mapM (fun p =>
      match p.2 with
      | some nid => Except.ok ((EdgeConnection.mk nid e.1.field, EdgeConnection.mk [] e.2.field) : Edge)
      | Option.none => Except.error PyErr.validationError)
    let tail ← buildNewEdges rest m
    pure (here ++ tail)

/-- The inner edge loop of `_create_execution_node` (lines 665-667): each
template edge is pointed at the freshly created node and added to the
execution graph. -/
def addExecEdges (st : GraphExecutionState) (newNodeId : Str) :
    List Edge → Except PyErr GraphExecutionState
  | [] => .ok st
  | e :: rest =>
    match st.execution_graph.add_edge (e.1, EdgeConnection.mk newNodeId e.2.field) with
    | .raised err _ => .error err
    | .ok eg2 => addExecEdges { st with execution_graph := eg2 } newNodeId rest

/-- The mapping updates of `_create_execution_node` lines 657-662: install the
new node's execution graph and record the prepared id in both mappings, with
the fresh-id counter advanced. -/
def recordPrepared (st : GraphExecutionState) (eg1 : Graph) (node_path new_id : Str) :
    GraphExecutionState :=
  { st with
    execution_graph := eg1,
    prepared_source_mapping := dictSet st.prepared_source_mapping new_id node_path,
    source_prepared_mapping := dictSet st.source_prepared_mapping node_path
      (setAdd (match dictLookup st.source_prepared_mapping node_path with
        | some l => l
        | Option.none => []) new_id),
    fresh := st.fresh + 1 }

/-- The per-iteration loop of `_create_execution_node` (lines 646-669): deep
copy, fresh id, iteration index for iterators, insertion into the execution
graph, the two mapping updates, and the new input edges. -/
def createIterLoop (st : GraphExecutionState) (node : Node) (node_path : Str)
    (new_edges : List Edge) : List Int → Except PyErr (GraphExecutionState × List Str)
  | [] => .ok (st, [])
  | i :: rest =>
    match st.execution_graph.add_node
        (match node.withId (freshId st.fresh) with
          | Node.iterate nid c _ => Node.iterate nid c i
          | other => other) with
    | .raised err _ => .error err
    | .ok eg1 =>
      match addExecEdges (recordPrepared st eg1 node_path (freshId st.fresh))
          (freshId st.fresh) new_edges with
      | .error err => .error err
      | .ok st2 =>
        match createIterLoop st2 node node_path new_edges rest with
        | .error err => .error err
        | .ok (st3, ids) => .ok (st3, freshId st.fresh :: ids)

/-- Model of `GraphExecutionState._create_execution_node`. -/
def GraphExecutionState._create_execution_node (st : GraphExecutionState)
    (node_path : Str) (iteration_node_map : List (Str × Option Str)) :
    Except PyErr (GraphExecutionState × List Str) := do
  let node ← st.graph.get_node node_path
  let self_iteration_count : Int ←
    if node.isIterate then do
      let ies ← st.graph._get_input_edges node_path (some (s "collection"))
      match ies with
      | [] => Except.error PyErr.stopIteration
      | input_collection_edge :: _ =>
        match (iteration_node_map.filter
            (fun p => p.1 = input_collection_edge.1.node_id)).head? with
        | Option.none => Except.error PyErr.stopIteration
        | some (_, Option.none) => Except.error PyErr.keyError
        | some (_, some pid) =>
          match dictLookup st.results pid with
          | Option.none => Except.error PyErr.keyError
          | some out => do
            let v ← pyGetattr out input_collection_edge.1.field
            match v with
            | .list l => pure (Int.ofNat l.length)
            | _ => Except.error PyErr.typeError
    else pure (-1)
  if self_iteration_count = 0 then pure (st, [])
  else do
    let input_edges ← st.graph._get_input_edges node_path Option.none
    let new_edges ← buildNewEdges input_edges iteration_node_map
    let iters : List Int :=
      if self_iteration_count > 0 then (List.range self_iteration_count.toNat).map Int.ofNat
      else [-1]
    createIterLoop st node node_path new_edges iters

/-- Model of `GraphExecutionState._iterator_graph`: the top-level source graph
with every collector's inbound edges removed. -/
def GraphExecutionState._iterator_graph (st : GraphExecutionState) : DiGraph :=
  (st.graph.nodes.filter (fun p => p.2.isCollect)).foldl
    (fun acc p => acc.removeEdgesFrom (acc.inEdges p.1)) st.graph.nx_graph

/-- Model of `GraphExecutionState._get_node_iterators`. -/
def GraphExecutionState._get_node_iterators (st : GraphExecutionState)
    (node_id : Str) : Except PyErr (List Str) := do
  let g := st._iterator_graph
  let anc ← g.ancestors node_id
  anc.filterM (fun n =>
    match dictLookup st.graph.nodes n with
    | some nd => Except.ok nd.isIterate
    | Option.none => Except.error PyErr.keyError)

/-- Model of `GraphExecutionState._get_iteration_node`. -/
def GraphExecutionState._get_iteration_node (st : GraphExecutionState)
    (source_node_path : Str) (graph execution_graph : DiGraph)
    (prepared_iterator_nodes : List Str) : Except PyErr (Option Str) :=
  match dictLookup st.source_prepared_mapping source_node_path with
  | Option.none => Except.error PyErr.keyError
  | some prepared_nodes =>
    if prepared_nodes.length = 1 then .ok prepared_nodes.head?
    else
      match (prepared_nodes.filter (fun n => n ∈ prepared_iterator_nodes)).head? with
      | some p => .ok (some p)
      | Option.none => do
        let iterator_source_node_mapping ← prepared_iterator_nodes.mapM (fun n =>
          match dictLookup st.prepared_source_mapping n with
          | some src => Except.ok (n, src)
          | Option.none => Except.error PyErr.keyError)
        let parent_iterators ← iterator_source_node_mapping.filterM (fun itn =>
          graph.has_path itn.2 source_node_path)
        -- Line 749 of the source reads
        -- `all(pit for pit in parent_iterators if nx.has_path(execution_graph, pit[0], n))`:
        -- the generator's `if` is a filter, the yielded elements are the
        -- (prepared, source) pairs themselves, and a non-empty tuple is always
        -- truthy in Python, so the `all` holds for every candidate `n`.
        let winners ← prepared_nodes.filterM (fun n => do
          let kept ← parent_iterators.filterM (fun pit => execution_graph.has_path pit.1 n)
          pure (kept.all (fun _ => true)))
        pure winners.head?

/-- The collect-branch mapping construction of `_prepare` (line 708): every
prepared copy of every parent, tagged with its source id. -/
def collectMappings (st : GraphExecutionState) : List Str → Except PyErr (List (Str × Option Str))
  | [] => .ok []
  | p :: rest =>
    match dictLookup st.source_prepared_mapping p with
    | Option.none => .error .keyError
    | some l => do
      let tail ← collectMappings st rest
      pure (l.map (fun q => (p, some q)) ++ tail)

/-- Model of `itertools.product` over a list of candidate lists. -/
def cartProd {α : Type} : List (List α) → List (List α)
  | [] => [[]]
  | l :: rest => l.flatMap (fun x => (cartProd rest).map (fun xs => x :: xs))

/-- The iteration loop of `_prepare` (lines 727-730), threading the state
through consecutive `_create_execution_node` calls and concatenating the
returned prepared ids. -/
def prepareLoop (st : GraphExecutionState) (node_path : Str) :
    List (List (Str × Option Str)) → Except PyErr (GraphExecutionState × List Str)
  | [] => .ok (st, [])
  | m :: rest =>
    match st._create_execution_node node_path m with
    | .error err => .error err
    | .ok (st2, ids) =>
      match prepareLoop st2 node_path rest with
      | .error err => .error err
      | .ok (st3, ids2) => .ok (st3, ids ++ ids2)

/-- Model of `GraphExecutionState._prepare`.  The `next(...)` over the
topological-sort generator is lazy: a match inside the producible prefix never
observes the `NetworkXUnfeasible` that a cyclic remainder would raise. -/
def GraphExecutionState._prepare (st : GraphExecutionState) :
    Except PyErr (GraphExecutionState × Option Str) := do
  let g := st.graph.nx_graph_flat DiGraph.empty Option.none
  let sorted_nodes := g.topoPrefix
  match sorted_nodes.find? (fun n =>
      !(dictContains st.source_prepared_mapping n) &&
      (g.inEdges n).all (fun e => e.1 ∈ st.executed)) with
  | Option.none =>
    if sorted_nodes.length = g.nodesL.length then pure (st, Option.none)
    else Except.error PyErr.networkXError
  | some next_node_id => do
    let next_node_parents := (g.inEdges next_node_id).map (fun e => e.1)
    let next_node ← st.graph.get_node next_node_id
    if next_node.isCollect then do
      let all_iteration_mappings ← collectMappings st next_node_parents
      let (st2, new_node_ids) ← st._create_execution_node next_node_id all_iteration_mappings
      pure (st2, new_node_ids.head?)
    else do
      let iterator_nodes ← st._get_node_iterators next_node_id
      let iterator_nodes_prepared ← iterator_nodes.mapM (fun n =>
        match dictLookup st.source_prepared_mapping n with
        | some l => Except.ok l
        | Option.none => Except.error PyErr.keyError)
      let combos := cartProd iterator_nodes_prepared
      let eg := st.execution_graph.nx_graph_flat DiGraph.empty Option.none
      let prepared_parent_mappings ← combos.mapM (fun it =>
        next_node_parents.mapM (fun n => do
          let r ← st._get_iteration_node n g eg it
          pure (n, r)))
      let (st2, new_node_ids) ← prepareLoop st next_node_id prepared_parent_mappings
      pure (st2, new_node_ids.head?)

/-- Model of `GraphExecutionState._get_next_node`, with the same lazy
topological-sort consumption as `_prepare`. -/
def GraphExecutionState._get_next_node (st : GraphExecutionState) :
    Except PyErr (Option Node) := do
  let g := st.execution_graph.nx_graph
  let sorted_nodes := g.topoPrefix
  match sorted_nodes.find? (fun n => n ∉ st.executed) with
  | some n =>
    match dictLookup st.execution_graph.nodes n with
    | some nd => pure (some nd)
    | Option.none => Except.error PyErr.keyError
  | Option.none =>
    if sorted_nodes.length = g.nodesL.length then pure Option.none
    else Except.error PyErr.networkXError

/-- The collect branch of `_prepare_inputs`: values at the `item` port in edge
order. -/
def prepInputsCollect (st : GraphExecutionState) : List Edge → Except PyErr (List Val)
  | [] => .ok []
  | e :: rest =>
    match dictLookup st.results e.1.node_id with
    | Option.none => .error .keyError
    | some out => do
      let v ← pyGetattr out e.1.field
      let tail ← prepInputsCollect st rest
      pure (v :: tail)

/-- The generic branch of `_prepare_inputs`: one `setattr` per input edge. -/
def prepInputsFold (st : GraphExecutionState) : Node → List Edge → Except PyErr Node
  | node, [] => .ok node
  | node, e :: rest =>
    match dictLookup st.results e.1.node_id with
    | Option.none => .error .keyError
    | some out => do
      let v ← pyGetattr out e.1.field
      let node2 ← node.setField e.2.field v
      prepInputsFold st node2 rest

/-- Model of `GraphExecutionState._prepare_inputs`.  Python mutates the node
object aliased from `execution_graph.nodes`; the model writes the updated node
back and also returns it. -/
def GraphExecutionState._prepare_inputs (st : GraphExecutionState) (node : Node) :
    Except PyErr (GraphExecutionState × Node) := do
  let input_edges := st.execution_graph.edges.filter (fun e => e.2.node_id = node.id)
  let node2 ←
    if node.isCollect then do
      let output_collection ← prepInputsCollect st
        (input_edges.filter (fun e => e.2.field = s "item"))
      node.setField (s "collection") (Val.list output_collection)
    else prepInputsFold st node input_edges
  pure ({ st with execution_graph :=
    st.execution_graph.withNodes (dictSet st.execution_graph.nodes node2.id node2) }, node2)

/-- Model of `GraphExecutionState.next`. -/
def GraphExecutionState.next (st : GraphExecutionState) :
    Except PyErr (GraphExecutionState × Option Node) := do
  let first ← st._get_next_node
  match first with
  | some nn => do
    let (st2, nd) ← st._prepare_inputs nn
    pure (st2, some nd)
  | Option.none => do
    let (st1, prepared_id) ← st._prepare
    match prepared_id with
    | Option.none => pure (st1, Option.none)
    | some _ => do
      let nxt ← st1._get_next_node
      match nxt with
      | Option.none => pure (st1, Option.none)
      | some nn => do
        let (st2, nd) ← st1._prepare_inputs nn
        pure (st2, some nd)

/-- Model of `GraphExecutionState._is_node_updatable`. -/
def GraphExecutionState._is_node_updatable (st : GraphExecutionState) (node_id : Str) : Bool :=
  !(dictContains st.source_prepared_mapping node_id)

/-- Model of `GraphExecutionState.add_node`: unconditional delegation to the
underlying graph. -/
def GraphExecutionState.add_node (st : GraphExecutionState) (node : Node) :
    PyResult GraphExecutionState :=
  match st.graph.add_node node with
  | .ok g2 => .ok { st with graph := g2 }
  | .raised err g2 => .raised err { st with graph := g2 }

/-- Model of `GraphExecutionState.update_node`: updatability guard, then
delegation. -/
def GraphExecutionState.update_node (st : GraphExecutionState) (node_path : Str)
    (new_node : Node) : PyResult GraphExecutionState :=
  if ¬ st._is_node_updatable node_path then .raised .nodeAlreadyExecuted st
  else
    match st.graph.update_node node_path new_node with
    | .ok g2 => .ok { st with graph := g2 }
    | .raised err g2 => .raised err { st with graph := g2 }

/-- Model of `GraphExecutionState.delete_node`: updatability guard, then
delegation. -/
def GraphExecutionState.delete_node (st : GraphExecutionState) (node_path : Str) :
    PyResult GraphExecutionState :=
  if ¬ st._is_node_updatable node_path then .raised .nodeAlreadyExecuted st
  else
    match st.graph.delete_node node_path with
    | .ok g2 => .ok { st with graph := g2 }
    | .raised err g2 => .raised err { st with graph := g2 }

/-- Model of `GraphExecutionState.add_edge`: destination updatability guard,
then delegation. -/
def GraphExecutionState.add_edge (st : GraphExecutionState) (e : Edge) :
    PyResult GraphExecutionState :=
  if ¬ st._is_node_updatable e.2.node_id then .raised .nodeAlreadyExecuted st
  else
    match st.graph.add_edge e with
    | .ok g2 => .ok { st with graph := g2 }
    | .raised err g2 => .raised err { st with graph := g2 }

/-- Model of `GraphExecutionState.delete_edge`: destination updatability guard,
then delegation. -/
def GraphExecutionState.delete_edge (st : GraphExecutionState) (e : Edge) :
    PyResult GraphExecutionState :=
  if ¬ st._is_node_updatable e.2.node_id then .raised .nodeAlreadyExecuted st
  else
    match st.graph.delete_edge e with
    | .ok g2 => .ok { st with graph := g2 }
    | .raised err g2 => .raised err { st with graph := g2 }

/-! Invoker façade (`invoker.py`).  A registered service is abstracted by its
name and by whether it implements the optional `start` / `stop` lifecycle
hooks; starting and stopping are modelled by the sequence of hook invocations
they emit, identified by service name. -/

/-- One registered service of the services registry. -/
structure ServiceSpec where
  name : Str
  hasStart : Bool
  hasStop : Bool

/-- Messages the invoker puts on the external work queue. -/
inductive QueueMsg where
  | workItem (graph_execution_state_id invocation_id : Str) (invoke_all : Bool)
  | shutdown
deriving DecidableEq, Repr

/-- One pass of `_start`'s loop: `__start_service` invokes `start` on every
service that has a callable one, in registry order. -/
def startPass (services : List ServiceSpec) : List Str :=
  (services.filter (fun sv => sv.hasStart)).map (fun sv => sv.name)

/-- One pass of `stop`'s loop over `__stop_service`. -/
def stopPass (services : List ServiceSpec) : List Str :=
  (services.filter (fun sv => sv.hasStop)).map (fun sv => sv.name)

/-- Model of `Invoker._start`: the source contains the same loop twice in
sequence, so every `start` hook is invoked twice. -/
def Invoker._start (services : List ServiceSpec) : List Str :=
  startPass services ++ startPass services

/-- Model of `Invoker.stop`: two identical hook loops, then `queue.put(None)`;
the result is the emitted hook-call sequence plus the queue messages. -/
def Invoker.stop (services : List ServiceSpec) : List Str × List QueueMsg :=
  (stopPass services ++ stopPass services, [QueueMsg.shutdown])

/-! Claim theorems. -/

/-- Empty graph used by the C5 counter-evaluation. -/
def g5 : Graph := Graph.mk (s "g5") [] []

/-- An edge that is absent from `g5`. -/
def e5 : Edge := (EdgeConnection.mk (s "A") (s "o"), EdgeConnection.mk (s "B") (s "i"))

/-- The same graph with `e5` present. -/
def g5b : Graph := Graph.mk (s "g5") [] [e5]

/-- C5: `delete_edge` of an absent edge is claimed to be a silent no-op, but
`list.remove` raises `ValueError` and the handler catches only `KeyError`, so
the call raises; deleting a present edge does remove it. -/
theorem c5_delete_edge_absent_raises :
    g5.delete_edge e5 = PyResult.raised PyErr.valueError g5 ∧
    g5b.delete_edge e5 = PyResult.ok g5 ∧
    PyErr.valueError ≠ PyErr.nodeNotFound := by
  refine ⟨rfl, rfl, by decide⟩

/-- A service registry entry implementing both lifecycle hooks. -/
def svc9 : ServiceSpec := ⟨s "processor", true, true⟩

/-- C9: starting the invoker is claimed to invoke each `start` hook exactly
once and stopping each `stop` hook exactly once; the source runs each loop
twice, so both hooks fire twice (the shutdown sentinel is indeed enqueued
after the stop loops). -/
theorem c9_lifecycle_hooks_fire_twice :
    ((Invoker._start [svc9]).filter (fun x => x = s "processor")).length = 2 ∧
    (((Invoker.stop [svc9]).1).filter (fun x => x = s "processor")).length = 2 ∧
    (Invoker.stop [svc9]).2 = [QueueMsg.shutdown] ∧
    (2 : Nat) ≠ 1 := by
  refine ⟨by decide, by decide, by decide, by decide⟩

/-- Helper: removing the element just appended recovers the original list when
the element was not already present. -/
theorem removeFirst_append_not_mem {α : Type} [DecidableEq α] (l : List α) (e : α)
    (h : e ∉ l) : removeFirst (l ++ [e]) e = l := by
  induction l with
  | nil => simp [removeFirst]
  | cons a rest ih =>
    simp only [List.mem_cons, not_or] at h
    simp only [List.cons_append, removeFirst]
    rw [if_neg (fun ha => h.1 ha.symm)]
    exact congrArg (a :: ·) (ih h.2)

theorem Graph.edges_withEdges (g : Graph) (es : List Edge) : (g.withEdges es).edges = es := by
  cases g; rfl

theorem Graph.withEdges_withEdges_self (g : Graph) (es : List Edge) :
    (g.withEdges es).withEdges g.edges = g := by
  cases g; rfl

/-- C8: a successful `add_edge(e)` followed by `delete_edge(e)` restores the
graph exactly: `add_edge` only succeeds when `e` was absent and appends it, and
`delete_edge` removes the first occurrence. -/
theorem c8_add_delete_edge_round_trip (g g2 : Graph) (e : Edge)
    (h : g.add_edge e = .ok g2) : g2.delete_edge e = .ok g := by
  unfold Graph.add_edge at h
  split at h
  next err heq => exact absurd h (by simp)
  next v heq =>
    split at h
    next hcond =>
      simp only [PyResult.ok.injEq] at h
      subst h
      unfold Graph.delete_edge
      rw [if_pos (by rw [Graph.edges_withEdges]; exact List.mem_append_right _ (by simp))]
      rw [Graph.edges_withEdges, removeFirst_append_not_mem g.edges e hcond.2,
        Graph.withEdges_withEdges_self]
    next hcond => exact absurd h (by simp)

def nodesW : List (Str × Node) :=
  [(s "A", Node.normal (s "A") (s "t") [] [] [(s "o", FieldType.intT)]),
   (s "B", Node.normal (s "B") (s "t") [(s "i", FieldType.intT)] [] [])]

def gW : Graph := Graph.mk (s "gw") nodesW []

def eW : Edge := (EdgeConnection.mk (s "A") (s "o"), EdgeConnection.mk (s "B") (s "i"))

def gW2 : Graph := Graph.mk (s "gw") nodesW [eW]

/-- Witness for C8 at a concrete two-node graph. -/
theorem c8_add_delete_edge_round_trip_witness :
    gW.add_edge eW = .ok gW2 ∧ gW2.delete_edge eW = .ok gW :=
  ⟨rfl, c8_add_delete_edge_round_trip gW gW2 eW rfl⟩

def nodeA : Node := Node.normal (s "A") (s "t") [] [] []

def gA : Graph := Graph.mk (s "g") [(s "A", nodeA)] []

/-- Execution state in which source node `A` already has the prepared copy `u`. -/
def stA : GraphExecutionState :=
  ⟨gA, Graph.mk (s "execution") [(s "u", nodeA.withId (s "u"))] [], [], [], [], [],
   [(s "u", s "A")], [(s "A", [s "u"])], 1⟩

/-- C3 counterexample: `add_node` performs no `NodeAlreadyExecuted` guard; with
the affected id already a key of `source_prepared_mapping` it delegates and the
underlying graph raises `NodeAlreadyInGraphError` instead. -/
theorem c3_add_node_missing_guard :
    stA.add_node nodeA = PyResult.raised PyErr.nodeAlreadyInGraph stA ∧
    PyErr.nodeAlreadyInGraph ≠ PyErr.nodeAlreadyExecuted :=
  ⟨rfl, by decide⟩

/-- C3 amended: `update_node`, `delete_node`, `add_edge` and `delete_edge` fail
with `NodeAlreadyExecuted` when the affected destination source-id is a key of
`source_prepared_mapping`, while `add_node` delegates unconditionally (so a
colliding id surfaces as `NodeAlreadyInGraph`). -/
theorem c3_mutator_guards (st : GraphExecutionState) (p : Str) (nn : Node) (e : Edge)
    (n2 : Node)
    (h1 : dictContains st.source_prepared_mapping p = true)
    (h2 : dictContains st.source_prepared_mapping e.2.node_id = true)
    (h3 : dictContains st.graph.nodes n2.id = true) :
    st.update_node p nn = .raised .nodeAlreadyExecuted st ∧
    st.delete_node p = .raised .nodeAlreadyExecuted st ∧
    st.add_edge e = .raised .nodeAlreadyExecuted st ∧
    st.delete_edge e = .raised .nodeAlreadyExecuted st ∧
    st.add_node n2 = .raised .nodeAlreadyInGraph st := by
  refine ⟨?_, ?_, ?_, ?_, ?_⟩
  · simp [GraphExecutionState.update_node, GraphExecutionState._is_node_updatable, h1]
  · simp [GraphExecutionState.delete_node, GraphExecutionState._is_node_updatable, h1]
  · simp [GraphExecutionState.add_edge, GraphExecutionState._is_node_updatable, h2]
  · simp [GraphExecutionState.delete_edge, GraphExecutionState._is_node_updatable, h2]
  · simp [GraphExecutionState.add_node, Graph.add_node, h3]

def eA : Edge := (EdgeConnection.mk (s "B") (s "o"), EdgeConnection.mk (s "A") (s "i"))

/-- Witness for the C3 amended statement at the concrete prepared state. -/
theorem c3_mutator_guards_witness :
    stA.update_node (s "A") nodeA = .raised .nodeAlreadyExecuted stA ∧
    stA.delete_node (s "A") = .raised .nodeAlreadyExecuted stA ∧
    stA.add_edge eA = .raised .nodeAlreadyExecuted stA ∧
    stA.delete_edge eA = .raised .nodeAlreadyExecuted stA ∧
    stA.add_node nodeA = .raised .nodeAlreadyInGraph stA :=
  c3_mutator_guards stA (s "A") nodeA eA nodeA rfl rfl rfl

def iterI10 : Node := Node.iterate (s "I") [] 0

def nodeB10 : Node := Node.normal (s "B") (s "t") [(s "x", FieldType.any)] [] []

/-- Graph whose iterator has no inbound `collection` edge. -/
def g10 : Graph := Graph.mk (s "g10") [(s "I", iterI10), (s "B", nodeB10)] []

/-- A proposed edge leaving the unwired iterator's `item` port. -/
def e10 : Edge := (EdgeConnection.mk (s "I") (s "item"), EdgeConnection.mk (s "B") (s "x"))

/-- C10: with zero inbound `collection` edges the iterator check evaluates
`inputs[0]` on an empty list, so it raises `IndexError` instead of returning a
verdict; `is_valid` and `_is_edge_valid` (for an edge leaving the unwired
iterator's `item` port) both surface that exception. -/
theorem c10_iterator_check_not_total (g : Graph) (p : Str) (oes : List Edge)
    (h1 : g._get_input_edges p (some (s "collection")) = .ok [])
    (h2 : g._get_output_edges p (s "item") = .ok oes) :
    g._is_iterator_connection_valid p Option.none Option.none = .error .indexError ∧
    g10.is_valid = .error .indexError ∧
    g10._is_edge_valid e10 = .error .indexError := by
  refine ⟨?_, rfl, rfl⟩
  simp [Graph._is_iterator_connection_valid, h1, h2, Bind.bind, Except.bind]

/-- Witness for C10 at the concrete unwired-iterator graph. -/
theorem c10_iterator_check_not_total_witness :
    g10._is_iterator_connection_valid (s "I") Option.none Option.none = .error .indexError ∧
    g10.is_valid = .error .indexError ∧
    g10._is_edge_valid e10 = .error .indexError :=
  c10_iterator_check_not_total g10 (s "I") [] rfl rfl

/-- Helper for C4: when adding the edge makes the flat graph cyclic, the
validity check can only answer `False` (whenever it answers at all), because
the acyclicity test precedes every later check. -/
theorem isEdgeValid_false_of_cyclic (g : Graph) (e : Edge)
    (hcyc : DiGraph.isDAG ((g.nx_graph_flat DiGraph.empty Option.none).addEdge
      (e.1.node_id, e.2.node_id)) = false) :
    ∀ b, g._is_edge_valid e = Except.ok b → b = false := by
  intro b hb
  unfold Graph._is_edge_valid at hb
  repeat' split at hb
  all_goals simp_all

def g4 : Graph :=
  Graph.mk (s "r")
    [(s "a.b", Node.normal (s "a.b") (s "t") [(s "y", FieldType.any)] [] [(s "x", FieldType.any)])]
    []

def e4 : Edge := (EdgeConnection.mk (s "a.b") (s "x"), EdgeConnection.mk (s "a.b") (s "y"))

/-- C4 counterexample: a self-edge on a node whose id contains a dot creates a
cycle in the flat view, yet `add_edge` raises `KeyError` (from the destination
input-edge scan, which splits the path at the dot) rather than
`InvalidEdgeError`. -/
theorem c4_cycle_can_raise_key_error :
    DiGraph.isDAG ((g4.nx_graph_flat DiGraph.empty Option.none).addEdge
      (e4.1.node_id, e4.2.node_id)) = false ∧
    g4.add_edge e4 = PyResult.raised PyErr.keyError g4 ∧
    PyErr.keyError ≠ PyErr.invalidEdge :=
  ⟨by decide, rfl, by decide⟩

/-- C4 amended: for every cycle-creating edge, `add_edge` never succeeds and
leaves the graph exactly as it was; whenever the validity check itself raises
no exception, the failure is `InvalidEdgeError`. -/
theorem c4_cyclic_edge_rejected (g : Graph) (e : Edge)
    (hcyc : DiGraph.isDAG ((g.nx_graph_flat DiGraph.empty Option.none).addEdge
      (e.1.node_id, e.2.node_id)) = false) :
    (∃ err, g.add_edge e = .raised err g) ∧
    (∀ b, g._is_edge_valid e = Except.ok b → g.add_edge e = .raised PyErr.invalidEdge g) := by
  have hfalse := isEdgeValid_false_of_cyclic g e hcyc
  constructor
  · cases hval : g._is_edge_valid e with
    | error err =>
      refine ⟨err, ?_⟩
      unfold Graph.add_edge
      rw [hval]
    | ok v =>
      have hv := hfalse v hval
      subst hv
      refine ⟨PyErr.invalidEdge, ?_⟩
      unfold Graph.add_edge
      rw [hval]
      simp
  · intro b hb
    have hv := hfalse b hb
    subst hv
    unfold Graph.add_edge
    rw [hb]
    simp

def nA4 : Node := Node.normal (s "A") (s "t") [(s "i", FieldType.intT)] [] [(s "o", FieldType.intT)]

def nB4 : Node := Node.normal (s "B") (s "t") [(s "i", FieldType.intT)] [] [(s "o", FieldType.intT)]

def nC4 : Node := Node.normal (s "C") (s "t") [(s "i", FieldType.intT)] [] [(s "o", FieldType.intT)]

/-- Chain `A → B → C` used as the C4 witness graph. -/
def gw4 : Graph :=
  Graph.mk (s "gw4") [(s "A", nA4), (s "B", nB4), (s "C", nC4)]
    [(EdgeConnection.mk (s "A") (s "o"), EdgeConnection.mk (s "B") (s "i")),
     (EdgeConnection.mk (s "B") (s "o"), EdgeConnection.mk (s "C") (s "i"))]

def ew4 : Edge := (EdgeConnection.mk (s "C") (s "o"), EdgeConnection.mk (s "A") (s "i"))

/-- Witness for C4 amended: the back edge `C → A` of the chain is rejected. -/
theorem c4_cyclic_edge_rejected_witness :
    DiGraph.isDAG ((gw4.nx_graph_flat DiGraph.empty Option.none).addEdge
      (ew4.1.node_id, ew4.2.node_id)) = false ∧
    (∃ err, gw4.add_edge ew4 = .raised err gw4) :=
  ⟨by decide, (c4_cyclic_edge_rejected gw4 ew4 (by decide)).1⟩

/-! Claim C1: concrete state with two prepared copies of `T` downstream of a
two-element iterator `I`. -/

def c1S : Node := Node.normal (s "S") (s "src") [] [] [(s "items", FieldType.list FieldType.intT)]

def c1I : Node := Node.iterate (s "I") [] 0

def c1T : Node := Node.normal (s "T") (s "t") [(s "x", FieldType.any)] [] [(s "y", FieldType.intT)]

def c1graph : Graph :=
  Graph.mk (s "c1")
    [(s "S", c1S), (s "I", c1I), (s "T", c1T)]
    [(EdgeConnection.mk (s "S") (s "items"), EdgeConnection.mk (s "I") (s "collection")),
     (EdgeConnection.mk (s "I") (s "item"), EdgeConnection.mk (s "T") (s "x"))]

/-- Flat source graph `S → I → T` as handed to `_get_iteration_node`. -/
def c1sg : DiGraph := ⟨[s "S", s "I", s "T"], [(s "S", s "I"), (s "I", s "T")]⟩

/-- Flat execution graph: `s1` feeds both iterator copies, `i1 → t1`, `i2 → t2`. -/
def c1eg : DiGraph :=
  ⟨[s "s1", s "i1", s "i2", s "t1", s "t2"],
   [(s "s1", s "i1"), (s "s1", s "i2"), (s "i1", s "t1"), (s "i2", s "t2")]⟩

def c1execGraph : Graph :=
  Graph.mk (s "execution")
    [(s "s1", c1S.withId (s "s1")),
     (s "i1", Node.iterate (s "i1") [] 0), (s "i2", Node.iterate (s "i2") [] 1),
     (s "t1", c1T.withId (s "t1")), (s "t2", c1T.withId (s "t2"))]
    [(EdgeConnection.mk (s "s1") (s "items"), EdgeConnection.mk (s "i1") (s "collection")),
     (EdgeConnection.mk (s "s1") (s "items"), EdgeConnection.mk (s "i2") (s "collection")),
     (EdgeConnection.mk (s "i1") (s "item"), EdgeConnection.mk (s "t1") (s "x")),
     (EdgeConnection.mk (s "i2") (s "item"), EdgeConnection.mk (s "t2") (s "x"))]

/-- State after both iterations of `I` and both copies of `T` are prepared. -/
def c1st : GraphExecutionState :=
  ⟨c1graph, c1execGraph,
   [s "s1", s "S", s "i1", s "i2", s "I"], [s "S", s "I"],
   [(s "s1", [(s "items", Val.list [Val.int 10, Val.int 20])])], [],
   [(s "s1", s "S"), (s "i1", s "I"), (s "i2", s "I"), (s "t1", s "T"), (s "t2", s "T")],
   [(s "S", [s "s1"]), (s "I", [s "i1", s "i2"]), (s "T", [s "t1", s "t2"])], 5⟩

/-- C1: asked for the copy of `T` that belongs to the iteration of `i2`,
`_get_iteration_node` returns `t1` — the first prepared copy — even though
`t1` is not a descendant of `i2` in the execution graph and `t2` is: the
`all(pit for pit in parent_iterators if nx.has_path(...))` at line 749 filters
a generator of tuples and tests the tuples' truthiness, so it never rejects a
candidate. -/
theorem c1_iteration_matcher_ignores_iteration :
    c1st._get_iteration_node (s "T") c1sg c1eg [s "i2"] = Except.ok (some (s "t1")) ∧
    c1eg.has_path (s "i2") (s "t1") = Except.ok false ∧
    c1eg.has_path (s "i2") (s "t2") = Except.ok true := by
  refine ⟨by decide, by decide, by decide⟩

/-! Claim C2: iterator over an empty executed collection. -/

def c2S : Node := Node.normal (s "S") (s "src") [] [] [(s "items", FieldType.list FieldType.intT)]

def c2I : Node := Node.iterate (s "I") [] 0

def c2T : Node := Node.normal (s "T") (s "t") [(s "x", FieldType.any)] [] [(s "y", FieldType.intT)]

def c2graph : Graph :=
  Graph.mk (s "c2")
    [(s "S", c2S), (s "I", c2I), (s "T", c2T)]
    [(EdgeConnection.mk (s "S") (s "items"), EdgeConnection.mk (s "I") (s "collection")),
     (EdgeConnection.mk (s "I") (s "item"), EdgeConnection.mk (s "T") (s "x"))]

def c2st0 : GraphExecutionState := GraphExecutionState.create c2graph

/-- First driver step: prepares and returns the copy of `S`. -/
def c2step1 : Except PyErr (GraphExecutionState × Option Node) := c2st0.next

/-- Prepared id of the copy of `S`. -/
def c2pid : Str :=
  match c2step1 with
  | .ok (_, some nd) => nd.id
  | _ => []

/-- State after `S` completed with the empty collection output. -/
def c2st2 : Except PyErr GraphExecutionState := do
  let (st1, _) ← c2step1
  st1.complete c2pid [(s "items", Val.list [])]

/-- The `_prepare` call that selects the iterator `I`. -/
def c2afterPrepare : Except PyErr (GraphExecutionState × Option Str) := do
  let st2 ← c2st2
  st2._prepare

def c2_prepare_returns_none : Bool :=
  match c2afterPrepare with
  | .ok (_, Option.none) => true
  | _ => false

def c2_no_new_prepared : Bool :=
  match c2st2, c2afterPrepare with
  | .ok st2, .ok (st3, _) => decide (st3.source_prepared_mapping = st2.source_prepared_mapping)
  | _, _ => false

def c2_next_returns_none : Bool :=
  match c2st2 with
  | .ok st2 =>
    match st2.next with
    | .ok (_, Option.none) => true
    | _ => false
  | _ => false

def c2_not_complete : Bool :=
  match c2afterPrepare with
  | .ok (st3, _) => !st3.is_complete
  | _ => false

def c2_iterator_not_executed : Bool :=
  match c2afterPrepare with
  | .ok (st3, _) => !(decide ((s "I") ∈ st3.executed))
  | _ => false

def c2_iterator_unprepared : Bool :=
  match c2afterPrepare with
  | .ok (st3, _) => !(dictContains st3.source_prepared_mapping (s "I"))
  | _ => false

set_option maxRecDepth 8000 in
/-- C2: with the executed input collection empty, `_prepare` for the iterator
produces no newly prepared nodes and `next()` returns nothing more — but the
iterator's source-id is never added to `executed` (it is not even entered into
`source_prepared_mapping`), so `is_complete()` stays false instead of the state
completing as claimed. -/
theorem c2_empty_iterator_never_completes :
    c2_prepare_returns_none = true ∧
    c2_no_new_prepared = true ∧
    c2_next_returns_none = true ∧
    c2_not_complete = true ∧
    c2_iterator_not_executed = true ∧
    c2_iterator_unprepared = true := by
  refine ⟨by decide, by decide, by decide, by decide, by decide, by decide⟩

/-! Claim C6: rename of a subgraph node with a cross-graph referencing edge.
The root graph holds a decoy subgraph under the empty-string id (making the
leading-dot rewrite path resolvable), a subgraph `g` containing the node `a`
being renamed to `b`, and a producer `X` wired to `g.a`. -/

def c6b3 : Node := Node.normal (s "b") (s "leafT") [(s "f", FieldType.intT)] [] []

def c6G3 : Graph := Graph.mk (s "G3") [(s "b", c6b3)] []

def c6G1 : Graph := Graph.mk (s "G1") [(s "a", Node.graphNode (s "a") c6G3)] []

def c6aTarget : Node := Node.normal (s "a") (s "leafT") [(s "f", FieldType.intT)] [] []

def c6G2 : Graph := Graph.mk (s "G2") [(s "a", c6aTarget)] []

def c6X : Node := Node.normal (s "X") (s "xT") [] [] [(s "o", FieldType.intT)]

def c6edgeOld : Edge := (EdgeConnection.mk (s "X") (s "o"), EdgeConnection.mk (s "g.a") (s "f"))

def c6root : Graph :=
  Graph.mk (s "root")
    [(s "", Node.graphNode (s "") c6G1),
     (s "g", Node.graphNode (s "g") c6G2),
     (s "X", c6X)]
    [c6edgeOld]

def c6new : Node := Node.normal (s "b") (s "leafT") [(s "f", FieldType.intT)] [] []

def c6res : PyResult Graph := c6root.update_node (s "g.a") c6new

def c6_update_succeeds : Bool :=
  match c6res with
  | .ok _ => true
  | _ => false

def c6_old_edge_remains : Bool :=
  match c6res with
  | .ok g2 => decide (c6edgeOld ∈ g2.edges)
  | _ => false

def c6_no_edge_references_new_path : Bool :=
  match c6res with
  | .ok g2 => g2.edges.all (fun e =>
      decide (e.1.node_id ≠ s "g.b") && decide (e.2.node_id ≠ s "g.b"))
  | _ => false

def c6_garbage_edge_added : Bool :=
  match c6res with
  | .ok g2 =>
    decide ((EdgeConnection.mk (s "X") (s "o"), EdgeConnection.mk (s ".a.b") (s "f")) ∈ g2.edges)
  | _ => false

def c6_old_node_not_deleted : Bool :=
  match c6res with
  | .ok g2 =>
    match g2.get_node (s "g.a") with
    | .ok _ => true
    | _ => false
  | _ => false

set_option maxRecDepth 8000 in
/-- C6: the rename of `g.a` to `b` returns successfully, yet the edge that
referenced the node still reads `g.a`, no edge references `g.b`, the rewiring
instead manufactured the path `.a.b` (resolving to an unrelated node), and the
old node was never deleted, because `graph.delete_node(node_path)` hands the
full dotted path to the containing subgraph, which cannot resolve it. -/
theorem c6_update_node_rewires_wrong_path :
    c6_update_succeeds = true ∧
    c6_old_edge_remains = true ∧
    c6_no_edge_references_new_path = true ∧
    c6_garbage_edge_added = true ∧
    c6_old_node_not_deleted = true := by
  refine ⟨by decide, by decide, by decide, by decide, by decide⟩

/-! Claim C7: the two prepared/source mappings are mutual inverses. -/

/-- Mutual-inverse property of a source→prepared-set map and a
prepared→source map. -/
def MapsInv (spm : List (Str × List Str)) (psm : List (Str × Str)) : Prop :=
  ∀ src p, (∃ l, dictLookup spm src = some l ∧ p ∈ l) ↔ dictLookup psm p = some src

/-- The invariant as a property of an execution state. -/
def InvMaps (st : GraphExecutionState) : Prop :=
  MapsInv st.source_prepared_mapping st.prepared_source_mapping

/-- Every prepared id recorded so far was minted by the fresh-id counter. -/
def FreshBound (st : GraphExecutionState) : Prop :=
  ∀ p src, dictLookup st.prepared_source_mapping p = some src →
    ∃ k, k < st.fresh ∧ p = freshId k

theorem dictLookup_dictSet {α : Type} (l : List (Str × α)) (k k2 : Str) (v : α) :
    dictLookup (dictSet l k v) k2 = if k = k2 then some v else dictLookup l k2 := by
  induction l with
  | nil => by_cases h : k = k2 <;> simp [dictSet, dictLookup, h]
  | cons hd tl ih =>
    obtain ⟨k3, v3⟩ := hd
    by_cases h3 : k3 = k
    · subst h3
      by_cases h2 : k3 = k2 <;> simp [dictSet, dictLookup, h2]
    · by_cases h2 : k3 = k2
      · subst h2
        simp only [dictSet, dictLookup, if_neg h3]
        rw [if_neg (fun he : k = k3 => h3 he.symm)]
        simp [dictLookup]
      · simp [dictSet, dictLookup, h3, h2, ih]

theorem mem_setAdd (l : List Str) (x y : Str) : y ∈ setAdd l x ↔ y ∈ l ∨ y = x := by
  by_cases h : x ∈ l
  · simp only [setAdd, if_pos h]
    exact ⟨Or.inl, fun h2 => h2.elim id (fun he => he ▸ h)⟩
  · simp [setAdd, if_neg h]

theorem freshId_inj {a b : Nat} (h : freshId a = freshId b) : a = b := by
  have h2 := congrArg List.length h
  simpa [freshId] using h2

/-- Freshness: the id about to be minted is not yet a key of the
prepared→source map. -/
theorem fresh_not_bound (psm : List (Str × Str)) (n : Nat)
    (hF : ∀ p src, dictLookup psm p = some src → ∃ k, k < n ∧ p = freshId k) :
    dictLookup psm (freshId n) = none := by
  cases h : dictLookup psm (freshId n) with
  | none => rfl
  | some src =>
    obtain ⟨k, hk, he⟩ := hF _ _ h
    exact absurd (freshId_inj he) (by omega)

/-- Core step: recording a fresh prepared id under its source path preserves
the mutual-inverse property. -/
theorem MapsInv.update (spm : List (Str × List Str)) (psm : List (Str × Str))
    (h : MapsInv spm psm) (node_path new_id : Str)
    (hfresh : dictLookup psm new_id = none) :
    MapsInv
      (dictSet spm node_path
        (setAdd (match dictLookup spm node_path with
          | some l => l
          | Option.none => []) new_id))
      (dictSet psm new_id node_path) := by
  intro src p
  rw [dictLookup_dictSet, dictLookup_dictSet]
  by_cases hsrc : node_path = src
  · subst hsrc
    simp only [if_pos rfl]
    by_cases hp : new_id = p
    · subst hp
      simp only [if_pos rfl]
      constructor
      · intro _; rfl
      · intro _
        exact ⟨_, rfl, (mem_setAdd _ _ _).mpr (Or.inr rfl)⟩
    · simp only [if_neg hp]
      constructor
      · rintro ⟨l, hl, hpl⟩
        obtain rfl : setAdd (match dictLookup spm node_path with
            | some l => l
            | Option.none => []) new_id = l := by injection hl
        rcases (mem_setAdd _ _ _).mp hpl with hin | he
        · cases hlk : dictLookup spm node_path with
          | none => rw [hlk] at hin; simp at hin
          | some l0 =>
            rw [hlk] at hin
            exact (h node_path p).mp ⟨l0, hlk, hin⟩
        · exact absurd he.symm hp
      · intro hps
        have := (h node_path p).mpr hps
        obtain ⟨l0, hl0, hpl0⟩ := this
        refine ⟨_, rfl, ?_⟩
        rw [hl0]
        exact (mem_setAdd _ _ _).mpr (Or.inl hpl0)
  · simp only [if_neg hsrc]
    by_cases hp : new_id = p
    · subst hp
      simp only [if_pos rfl]
      constructor
      · rintro ⟨l, hl, hpl⟩
        have := (h src new_id).mp ⟨l, hl, hpl⟩
        rw [hfresh] at this
        cases this
      · intro hs
        exact absurd ((Option.some.injEq _ _).mp hs) hsrc
    · simp only [if_neg hp]
      exact h src p

theorem InvMaps_of_maps_eq (st st2 : GraphExecutionState)
    (h1 : st2.source_prepared_mapping = st.source_prepared_mapping)
    (h2 : st2.prepared_source_mapping = st.prepared_source_mapping)
    (h : InvMaps st) : InvMaps st2 := by
  unfold InvMaps MapsInv at *
  rw [h1, h2]
  exact h

theorem FreshBound_of_maps_eq (st st2 : GraphExecutionState)
    (h2 : st2.prepared_source_mapping = st.prepared_source_mapping)
    (hf : st.fresh ≤ st2.fresh) (h : FreshBound st) : FreshBound st2 := by
  unfold FreshBound at *
  rw [h2]
  intro p src hps
  obtain ⟨k, hk, he⟩ := h p src hps
  exact ⟨k, by omega, he⟩

/-- The edge loop of node materialization only touches the execution graph. -/
theorem addExecEdges_maps : ∀ (es : List Edge) (st st2 : GraphExecutionState) (nid : Str),
    addExecEdges st nid es = .ok st2 →
    st2.prepared_source_mapping = st.prepared_source_mapping ∧
    st2.source_prepared_mapping = st.source_prepared_mapping ∧
    st2.fresh = st.fresh := by
  intro es
  induction es with
  | nil =>
    intro st st2 nid h
    unfold addExecEdges at h
    cases h
    exact ⟨rfl, rfl, rfl⟩
  | cons e rest ih =>
    intro st st2 nid h
    unfold addExecEdges at h
    split at h
    · exact absurd h (by simp)
    · obtain ⟨a1, a2, a3⟩ := ih _ _ _ h
      exact ⟨a1, a2, a3⟩

/-- Recording one freshly minted prepared id preserves the invariant and the
fresh-id bound. -/
theorem recordPrepared_preserves (st : GraphExecutionState) (eg1 : Graph) (node_path : Str)
    (h1 : InvMaps st) (h2 : FreshBound st) :
    InvMaps (recordPrepared st eg1 node_path (freshId st.fresh)) ∧
    FreshBound (recordPrepared st eg1 node_path (freshId st.fresh)) := by
  have hfresh := fresh_not_bound st.prepared_source_mapping st.fresh h2
  constructor
  · unfold InvMaps recordPrepared
    exact MapsInv.update _ _ h1 node_path (freshId st.fresh) hfresh
  · unfold FreshBound recordPrepared
    intro p src hps
    dsimp only at hps ⊢
    rw [dictLookup_dictSet] at hps
    by_cases hp : freshId st.fresh = p
    · exact ⟨st.fresh, by omega, hp.symm⟩
    · rw [if_neg hp] at hps
      obtain ⟨k, hk, he⟩ := h2 p src hps
      exact ⟨k, by omega, he⟩

/-- The per-iteration materialization loop preserves the invariant and the
fresh-id bound. -/
theorem createIterLoop_preserves (node : Node) (node_path : Str) (new_edges : List Edge) :
    ∀ (iters : List Int) (st st2 : GraphExecutionState) (ids : List Str),
      InvMaps st → FreshBound st →
      createIterLoop st node node_path new_edges iters = .ok (st2, ids) →
      InvMaps st2 ∧ FreshBound st2 := by
  intro iters
  induction iters with
  | nil =>
    intro st st2 ids h1 h2 h
    unfold createIterLoop at h
    cases h
    exact ⟨h1, h2⟩
  | cons i rest ih =>
    intro st st2 ids h1 h2 h
    unfold createIterLoop at h
    split at h
    · exact absurd h (by simp)
    next eg1 heg =>
      split at h
      · exact absurd h (by simp)
      next stee hee =>
        split at h
        · exact absurd h (by simp)
        next st3 ids3 hrec =>
          simp only [Except.ok.injEq, Prod.mk.injEq] at h
          obtain ⟨rfl, _⟩ := h
          obtain ⟨hinv1, hfb1⟩ := recordPrepared_preserves st eg1 node_path h1 h2
          obtain ⟨hm1, hm2, hm3⟩ := addExecEdges_maps _ _ _ _ hee
          have hinv2 : InvMaps stee := InvMaps_of_maps_eq _ _ hm2 hm1 hinv1
          have hfb2 : FreshBound stee := FreshBound_of_maps_eq _ _ hm1 (by rw [hm3]) hfb1
          exact ih stee st3 ids3 hinv2 hfb2 hrec

/-- Node materialization preserves the invariant and the fresh-id bound. -/
theorem create_execution_node_preserves (st st2 : GraphExecutionState) (p : Str)
    (m : List (Str × Option Str)) (ids : List Str)
    (h1 : InvMaps st) (h2 : FreshBound st)
    (h : st._create_execution_node p m = .ok (st2, ids)) :
    InvMaps st2 ∧ FreshBound st2 := by
  unfold GraphExecutionState._create_execution_node at h
  simp only [Bind.bind, Except.bind, pure, Except.pure] at h
  repeat' split at h
  all_goals
    first
    | (simp at h; done)
    | exact createIterLoop_preserves _ _ _ _ _ _ _ h1 h2 h
    | (simp only [Except.ok.injEq, Prod.mk.injEq] at h
       obtain ⟨rfl, _⟩ := h
       exact ⟨h1, h2⟩)

/-- The `_prepare` iteration loop preserves the invariant and the bound. -/
theorem prepareLoop_preserves (node_path : Str) :
    ∀ (ms : List (List (Str × Option Str))) (st st2 : GraphExecutionState) (ids : List Str),
      InvMaps st → FreshBound st →
      prepareLoop st node_path ms = .ok (st2, ids) →
      InvMaps st2 ∧ FreshBound st2 := by
  intro ms
  induction ms with
  | nil =>
    intro st st2 ids h1 h2 h
    unfold prepareLoop at h
    cases h
    exact ⟨h1, h2⟩
  | cons mm rest ih =>
    intro st st2 ids h1 h2 h
    unfold prepareLoop at h
    split at h
    · exact absurd h (by simp)
    next stc idsc hc =>
      split at h
      · exact absurd h (by simp)
      next st3 ids3 hrec =>
        simp only [Except.ok.injEq, Prod.mk.injEq] at h
        obtain ⟨rfl, _⟩ := h
        obtain ⟨hi, hf⟩ := create_execution_node_preserves _ _ _ _ _ h1 h2 hc
        exact ih stc st3 ids3 hi hf hrec

/-- `_prepare` preserves the invariant and the bound. -/
theorem prepare_preserves (st stp : GraphExecutionState) (rid : Option Str)
    (h1 : InvMaps st) (h2 : FreshBound st)
    (h : st._prepare = .ok (stp, rid)) : InvMaps stp ∧ FreshBound stp := by
  unfold GraphExecutionState._prepare at h
  simp only [Bind.bind, Except.bind, pure, Except.pure] at h
  repeat' split at h
  all_goals
    first
    | (simp at h; done)
    | (simp only [Except.ok.injEq, Prod.mk.injEq] at h
       obtain ⟨rfl, _⟩ := h
       first
       | exact ⟨h1, h2⟩
       | exact create_execution_node_preserves _ _ _ _ _ h1 h2 (by assumption)
       | exact prepareLoop_preserves _ _ _ _ _ h1 h2 (by assumption))

/-- `_prepare_inputs` only rewrites the execution graph node. -/
theorem prepare_inputs_maps (st st2 : GraphExecutionState) (nd nd2 : Node)
    (h : st._prepare_inputs nd = .ok (st2, nd2)) :
    st2.prepared_source_mapping = st.prepared_source_mapping ∧
    st2.source_prepared_mapping = st.source_prepared_mapping ∧
    st2.fresh = st.fresh := by
  unfold GraphExecutionState._prepare_inputs at h
  simp only [Bind.bind, Except.bind, pure, Except.pure] at h
  repeat' split at h
  all_goals
    first
    | (simp at h; done)
    | (simp only [Except.ok.injEq, Prod.mk.injEq] at h
       obtain ⟨rfl, _⟩ := h
       exact ⟨rfl, rfl, rfl⟩)

/-- `_prepare_inputs` preserves the invariant and the bound. -/
theorem prepare_inputs_preserves (st st2 : GraphExecutionState) (nd nd2 : Node)
    (h1 : InvMaps st) (h2 : FreshBound st)
    (h : st._prepare_inputs nd = .ok (st2, nd2)) : InvMaps st2 ∧ FreshBound st2 := by
  obtain ⟨e1, e2, e3⟩ := prepare_inputs_maps _ _ _ _ h
  exact ⟨InvMaps_of_maps_eq _ _ e2 e1 h1, FreshBound_of_maps_eq _ _ e1 (by omega) h2⟩

/-- Chaining `_prepare` and `_prepare_inputs` preserves the invariant. -/
theorem prepare_then_inputs_preserves (st stm stf : GraphExecutionState)
    (rid : Option Str) (nd nd2 : Node)
    (h1 : InvMaps st) (h2 : FreshBound st)
    (hp : st._prepare = .ok (stm, rid))
    (hpi : stm._prepare_inputs nd = .ok (stf, nd2)) :
    InvMaps stf ∧ FreshBound stf := by
  obtain ⟨hi, hf⟩ := prepare_preserves _ _ _ h1 h2 hp
  exact prepare_inputs_preserves _ _ _ _ hi hf hpi

/-- `next` preserves the invariant and the bound. -/
theorem next_preserves (st stn : GraphExecutionState) (onode : Option Node)
    (h1 : InvMaps st) (h2 : FreshBound st)
    (h : st.next = .ok (stn, onode)) : InvMaps stn ∧ FreshBound stn := by
  unfold GraphExecutionState.next at h
  simp only [Bind.bind, Except.bind, pure, Except.pure] at h
  repeat' split at h
  all_goals
    first
    | (simp at h; done)
    | (simp only [Except.ok.injEq, Prod.mk.injEq] at h
       obtain ⟨rfl, _⟩ := h
       first
       | exact ⟨h1, h2⟩
       | (apply prepare_inputs_preserves st _ _ _ h1 h2; assumption)
       | (apply prepare_preserves st _ _ h1 h2; assumption)
       | (apply prepare_then_inputs_preserves st _ _ _ _ _ h1 h2 <;> assumption))

/-- `complete` never touches the mappings. -/
theorem complete_maps (st st2 : GraphExecutionState) (nid : Str) (out : Output)
    (h : st.complete nid out = .ok st2) :
    st2.prepared_source_mapping = st.prepared_source_mapping ∧
    st2.source_prepared_mapping = st.source_prepared_mapping ∧
    st2.fresh = st.fresh := by
  unfold GraphExecutionState.complete completeRecord at h
  repeat' split at h
  all_goals
    first
    | (simp at h; done)
    | (simp only [Except.ok.injEq] at h
       subst h
       exact ⟨rfl, rfl, rfl⟩)

/-- State carried by a `PyResult`, whether the method returned or raised. -/
def PyResult.state {σ : Type} : PyResult σ → σ
  | .ok a => a
  | .raised _ a => a

/-- C7: `source_prepared_mapping` and `prepared_source_mapping` are mutual
inverses.  A freshly created state satisfies the invariant, node
materialization (`_create_execution_node`) preserves it (together with the
freshness bound on minted ids), and so do `_prepare`, `next`, `complete`,
`set_node_error` and the five graph mutators, which never touch the two
mappings. -/
theorem c7_mappings_mutual_inverse (g0 : Graph) (st stc stp stn stcm : GraphExecutionState)
    (p nid np msg : Str) (m : List (Str × Option Str)) (ids : List Str) (out : Output)
    (rid : Option Str) (onode : Option Node) (n2 : Node) (e : Edge)
    (hInv : InvMaps st) (hF : FreshBound st) :
    (InvMaps (GraphExecutionState.create g0) ∧ FreshBound (GraphExecutionState.create g0)) ∧
    (st._create_execution_node p m = .ok (stc, ids) → InvMaps stc ∧ FreshBound stc) ∧
    (st._prepare = .ok (stp, rid) → InvMaps stp ∧ FreshBound stp) ∧
    (st.next = .ok (stn, onode) → InvMaps stn ∧ FreshBound stn) ∧
    (st.complete nid out = .ok stcm → InvMaps stcm ∧ FreshBound stcm) ∧
    (InvMaps (st.set_node_error nid msg) ∧ FreshBound (st.set_node_error nid msg)) ∧
    (InvMaps (st.add_node n2).state ∧ FreshBound (st.add_node n2).state) ∧
    (InvMaps (st.update_node np n2).state ∧ FreshBound (st.update_node np n2).state) ∧
    (InvMaps (st.delete_node np).state ∧ FreshBound (st.delete_node np).state) ∧
    (InvMaps (st.add_edge e).state ∧ FreshBound (st.add_edge e).state) ∧
    (InvMaps (st.delete_edge e).state ∧ FreshBound (st.delete_edge e).state) := by
  refine ⟨⟨?_, ?_⟩, ?_, ?_, ?_, ?_, ⟨hInv, hF⟩, ?_, ?_, ?_, ?_, ?_⟩
  · intro src pp
    simp [GraphExecutionState.create, dictLookup]
  · intro pp src hps
    simp [GraphExecutionState.create, dictLookup] at hps
  · exact create_execution_node_preserves _ _ _ _ _ hInv hF
  · exact prepare_preserves _ _ _ hInv hF
  · exact next_preserves _ _ _ hInv hF
  · intro hc
    obtain ⟨e1, e2, e3⟩ := complete_maps _ _ _ _ hc
    exact ⟨InvMaps_of_maps_eq _ _ e2 e1 hInv, FreshBound_of_maps_eq _ _ e1 (by omega) hF⟩
  · unfold GraphExecutionState.add_node
    cases st.graph.add_node n2 <;> exact ⟨hInv, hF⟩
  · unfold GraphExecutionState.update_node
    split
    · exact ⟨hInv, hF⟩
    · cases st.graph.update_node np n2 <;> exact ⟨hInv, hF⟩
  · unfold GraphExecutionState.delete_node
    split
    · exact ⟨hInv, hF⟩
    · cases st.graph.delete_node np <;> exact ⟨hInv, hF⟩
  · unfold GraphExecutionState.add_edge
    split
    · exact ⟨hInv, hF⟩
    · cases st.graph.add_edge e <;> exact ⟨hInv, hF⟩
  · unfold GraphExecutionState.delete_edge
    split
    · exact ⟨hInv, hF⟩
    · cases st.graph.delete_edge e <;> exact ⟨hInv, hF⟩

def c7g : Graph := Graph.mk (s "c7") [(s "A", Node.normal (s "A") (s "t") [] [] [])] []

def c7run : Except PyErr (GraphExecutionState × List Str) :=
  (GraphExecutionState.create c7g)._create_execution_node (s "A") []

def c7state : GraphExecutionState :=
  match c7run with
  | .ok (st2, _) => st2
  | _ => GraphExecutionState.create c7g

def c7ids : List Str :=
  match c7run with
  | .ok (_, ids) => ids
  | _ => []

/-- Witness for C7: materializing node `A` from a fresh state keeps the two
mappings mutual inverses. -/
theorem c7_mappings_mutual_inverse_witness : InvMaps c7state ∧ FreshBound c7state :=
  ((c7_mappings_mutual_inverse c7g (GraphExecutionState.create c7g) c7state
    (GraphExecutionState.create c7g) (GraphExecutionState.create c7g)
    (GraphExecutionState.create c7g) (s "A") (s "x") (s "x") (s "x") [] c7ids []
    Option.none Option.none (Node.normal (s "Z") (s "t") [] [] [])
    (EdgeConnection.mk (s "x") (s "x"), EdgeConnection.mk (s "x") (s "x"))
    (by intro src pp; simp [GraphExecutionState.create, dictLookup])
    (by intro pp src hps; simp [GraphExecutionState.create, dictLookup] at hps)).2.1) rfl
